import Mathlib

/-!
Verification of the agent-orchestration core of the WonderfulAI pharmacy
assistant backend.

The development shallowly embeds:
  * `src/backend/app/agents/openai_agent.py` (`stream`),
  * `src/backend/app/agents/gemini_agent.py` (`stream`),
  * `src/backend/app/tools.py` (`run_tool`, `_increment_tool_stat`,
    `request_prescription_refill`).

Modelling conventions:
  * The provider SDK is abstracted as a function from the running
    conversation to the finite list of stream chunks it delivers, together
    with an optional exception message raised during (or instead of)
    streaming; chunks listed are the ones received before any exception.
    The constant system-prompt message prepended on every call is absorbed
    into this abstract function.
  * Python exceptions are `Except String` values (`.error msg` is a raised
    exception carrying `str(e) = msg`).
  * `json.loads` / `json.dumps` are abstract parameters (`parse`, `dumps`):
    the adapters only ever branch on whether parsing succeeded, never on
    the text itself.
  * Python truthiness tests on strings/lists (`if delta.content:` etc.) are
    modelled by explicit emptiness tests.
-/

namespace WonderfulAI

/-- Flat JSON-like value, sufficient for the payload fields the claims
inspect. Tool results are JSON objects: lists of key / value pairs. -/
inductive JValue where
  | str (s : String)
  | num (n : Int)
  | jbool (b : Bool)
  | null
deriving DecidableEq

/-- A JSON object: the value shape returned by every tool and the shape of a
parsed tool-call argument mapping. -/
abbrev JObject := List (String × JValue)

/-- Parsed tool-call arguments (`json.loads` result assumed to be an
object, as the tool layer requires). -/
abbrev ArgsMap := JObject

/-- The canonical `AgentEvent` union: the six event dictionaries yielded by
both adapters (`type` discriminator plus payload fields). -/
inductive AgentEvent where
  | text_delta (delta : String)
  | tool_args_delta (item_id : String) (delta : String)
  | tool_call (name : String) (call_id : String) (arguments : ArgsMap)
  | tool_result (name : String) (call_id : String) (result : JObject)
  | done
  | error (message : String)
deriving DecidableEq

/-- An event is terminal when it is `done` or `error`. -/
def isTerminal : AgentEvent → Bool
  | .done => true
  | .error _ => true
  | _ => false

/-- Recognizer for `tool_args_delta` events. -/
def isToolArgsDelta : AgentEvent → Bool
  | .tool_args_delta _ _ => true
  | _ => false

/-- Recognizer for `text_delta` events. -/
def isTextDelta : AgentEvent → Bool
  | .text_delta _ => true
  | _ => false

/-- The f-string yielded after the round loop exhausts its budget
(identical text in both adapters). -/
def maxRoundsMessage (maxToolRounds : Nat) : String :=
  "Maximum tool call rounds (" ++ toString maxToolRounds ++
    ") reached. This likely indicates an infinite loop. Please try rephrasing your request or contact support."

/-- An incoming chat message from the transport boundary:
`\x7b"role": str, "content": str\x7d`. -/
structure InMessage where
  role : String
  content : String
deriving DecidableEq

/-- Python truthiness for an optional string field: `None` and `""` are
both falsy. -/
def strTruthy : Option String → Option String
  | some s => if s.isEmpty then none else some s
  | none => none

/-! ### OpenAI adapter (`openai_agent.stream`) -/

/-- Accumulator entry of `assistant_message["tool_calls"]`:
`\x7b"id", "type": "function", "function": \x7b"name", "arguments"\x7d\x7d`. -/
structure ToolCallAcc where
  id : String
  name : String
  arguments : String
deriving DecidableEq

/-- One element of `delta.tool_calls` in a streamed chunk. -/
structure ToolCallDeltaFn where
  name : Option String
  arguments : Option String
deriving DecidableEq

/-- A (possibly fragmentary) tool-call delta, addressed by position. -/
structure ToolCallDelta where
  index : Option Nat
  id : Option String
  function : Option ToolCallDeltaFn
deriving DecidableEq

/-- The `delta` object of a chunk's first choice. -/
structure ChoiceDelta where
  content : Option String
  tool_calls : Option (List ToolCallDelta)
deriving DecidableEq

/-- One provider chunk; `none` models a chunk with empty `choices`
(skipped by `if not chunk.choices: continue`). -/
abbrev OAChunk := Option ChoiceDelta

/-- The mutable per-round assistant message: accumulated text content and
the positional tool-call accumulators. -/
structure OAState where
  content : String
  tool_calls : List ToolCallAcc
deriving DecidableEq

/-- Process one `tool_call_delta`: grow the accumulator list up to the
delta's index, record id / name, append the argument fragment and yield a
`tool_args_delta` event for it (with the accumulator's current id). -/
def applyToolCallDelta (tcs0 : List ToolCallAcc) (d : ToolCallDelta) :
    List ToolCallAcc × List AgentEvent :=
  match d.index with
  | none => (tcs0, [])
  | some idx =>
    let tcs := tcs0 ++ List.replicate (idx + 1 - tcs0.length) ⟨"", "", ""⟩
    let e := tcs.getD idx ⟨"", "", ""⟩
    let e := match strTruthy d.id with
      | some i => { e with id := i }
      | none => e
    match d.function with
    | none => (tcs.set idx e, [])
    | some f =>
      let e := match strTruthy f.name with
        | some n => { e with name := n }
        | none => e
      match strTruthy f.arguments with
      | none => (tcs.set idx e, [])
      | some a =>
        let e := { e with arguments := e.arguments ++ a }
        (tcs.set idx e, [AgentEvent.tool_args_delta e.id a])

/-- Fold `applyToolCallDelta` over the `delta.tool_calls` list of one
chunk, concatenating the emitted events in order. -/
def applyToolCallDeltas : List ToolCallAcc → List ToolCallDelta →
    List ToolCallAcc × List AgentEvent
  | tcs, [] => (tcs, [])
  | tcs, d :: ds =>
    let p := applyToolCallDelta tcs d
    let q := applyToolCallDeltas p.1 ds
    (q.1, p.2 ++ q.2)

/-- Consume one chunk: emit `text_delta` for truthy content, then process
the tool-call deltas. -/
def oaProcessChunk (st : OAState) (c : OAChunk) : OAState × List AgentEvent :=
  match c with
  | none => (st, [])
  | some delta =>
    let p : OAState × List AgentEvent :=
      match strTruthy delta.content with
      | some t => ({ st with content := st.content ++ t }, [AgentEvent.text_delta t])
      | none => (st, [])
    match delta.tool_calls with
    | none => p
    | some [] => p
    | some ds =>
      let q := applyToolCallDeltas p.1.tool_calls ds
      ({ p.1 with tool_calls := q.1 }, p.2 ++ q.2)

/-- Consume the whole chunk stream of one round. -/
def oaProcessChunks : OAState → List OAChunk → OAState × List AgentEvent
  | st, [] => (st, [])
  | st, c :: cs =>
    let p := oaProcessChunk st c
    let q := oaProcessChunks p.1 cs
    (q.1, p.2 ++ q.2)

/-- Assistant-message state after the chunk loop of a round, starting from
the fresh `\x7b"role": "assistant", "content": "", "tool_calls": []\x7d`. -/
def oaChunkState (chunks : List OAChunk) : OAState :=
  (oaProcessChunks ⟨"", []⟩ chunks).1

/-- Events yielded during the chunk loop of a round. -/
def oaChunkEvents (chunks : List OAChunk) : List AgentEvent :=
  (oaProcessChunks ⟨"", []⟩ chunks).2

/-- The tool calls finalized at end of stream for one round. -/
def oaFinalized (chunks : List OAChunk) : List ToolCallAcc :=
  (oaChunkState chunks).tool_calls

/-- Conversation messages held in `chat_messages`. -/
inductive ChatMessage where
  | basic (role : String) (content : String)
  | assistantToolCalls (content : String) (tool_calls : List ToolCallAcc)
  | toolMessage (tool_call_id : String) (content : String)
deriving DecidableEq

/-- The provider's response to one streaming completion call: the chunks
delivered, and optionally the message of an exception raised while
communicating with the provider (after those chunks were received). -/
structure OARoundResp where
  chunks : List OAChunk
  exn : Option String
deriving DecidableEq

/-- Abstract provider: conversation so far to streamed round response. -/
abbrev Provider := List ChatMessage → OARoundResp

/-- Abstract `run_tool` as seen by an adapter: `.error m` models a raised
exception with message `m`. -/
abbrev RunToolFn := String → ArgsMap → Except String JObject

/-- Abstract `json.loads` restricted to objects: `none` models
`json.JSONDecodeError`. -/
abbrev ParseArgs := String → Option ArgsMap

/-- Abstract `json.dumps`. -/
abbrev DumpJson := JObject → String

/-- Execute the finalized tool calls of one round in order: parse the
accumulated argument text (malformed JSON becomes the empty mapping),
yield `tool_call`, invoke the tool, yield `tool_result`, and build the
tool-role messages appended to the conversation. The third component is
the message of an exception raised by a tool, stopping the loop. -/
def execToolCalls (runTool : RunToolFn) (parse : ParseArgs) (dumps : DumpJson) :
    List ToolCallAcc → List AgentEvent × List ChatMessage × Option String
  | [] => ([], [], none)
  | tc :: rest =>
    let args := (parse tc.arguments).getD []
    let callEv := AgentEvent.tool_call tc.name tc.id args
    match runTool tc.name args with
    | .error m => ([callEv], [], some m)
    | .ok r =>
      let t := execToolCalls runTool parse dumps rest
      (callEv :: AgentEvent.tool_result tc.name tc.id r :: t.1,
       ChatMessage.toolMessage tc.id (dumps r) :: t.2.1,
       t.2.2)

/-- One round of `openai_agent.stream` given the provider's response, with
`k` the continuation running the remaining rounds on the updated
conversation. A provider exception yields a single `error` after the
events already streamed; zero finalized tool calls yields `done`; else the
assistant message is appended, the tools are executed and the loop
continues (or dies in `error` when a tool raised). -/
def oaRoundStep (runTool : RunToolFn) (parse : ParseArgs) (dumps : DumpJson)
    (resp : OARoundResp) (msgs : List ChatMessage)
    (k : List ChatMessage → List AgentEvent) : List AgentEvent :=
  let st := oaChunkState resp.chunks
  let chunkEvs := oaChunkEvents resp.chunks
  match resp.exn with
  | some m => chunkEvs ++ [AgentEvent.error m]
  | none =>
    if st.tool_calls.isEmpty then chunkEvs ++ [AgentEvent.done]
    else
      let t := execToolCalls runTool parse dumps st.tool_calls
      match t.2.2 with
      | some m => chunkEvs ++ t.1 ++ [AgentEvent.error m]
      | none =>
        chunkEvs ++ t.1 ++
          k ((msgs ++ [ChatMessage.assistantToolCalls st.content st.tool_calls]) ++ t.2.1)

/-- The round loop `for _round_idx in range(max_tool_rounds)` of
`openai_agent.stream`, by recursion on the remaining rounds; when the
budget is exhausted a single round-limit `error` is yielded. -/
def oaStreamGo (provider : Provider) (runTool : RunToolFn) (parse : ParseArgs)
    (dumps : DumpJson) (maxToolRounds : Nat) :
    Nat → List ChatMessage → List AgentEvent
  | 0, _ => [AgentEvent.error (maxRoundsMessage maxToolRounds)]
  | fuel + 1, chatMessages =>
    oaRoundStep runTool parse dumps (provider chatMessages) chatMessages
      (oaStreamGo provider runTool parse dumps maxToolRounds fuel)

/-- `openai_agent.stream(messages, max_tool_rounds)`: the full finite event
sequence produced for one invocation. -/
def openaiStream (provider : Provider) (runTool : RunToolFn) (parse : ParseArgs)
    (dumps : DumpJson) (messages : List InMessage) (maxToolRounds : Nat) :
    List AgentEvent :=
  oaStreamGo provider runTool parse dumps maxToolRounds maxToolRounds
    (messages.map fun m => ChatMessage.basic m.role m.content)

/-! ### Gemini adapter (`gemini_agent.stream`) -/

/-- The `function_call` attribute of a response part; `args = none` covers
both a missing mapping and a failing `dict(...)` conversion — the code
substitutes the empty mapping in either case. -/
structure GFunctionCall where
  name : Option String
  args : Option ArgsMap
deriving DecidableEq

/-- One part of a candidate's content. -/
structure GPart where
  function_call : Option GFunctionCall
deriving DecidableEq

/-- A candidate's content; a falsy content is modelled by `none` at the
candidate level. -/
structure GContent where
  parts : List GPart
deriving DecidableEq

/-- One response candidate. -/
structure GCandidate where
  content : Option GContent
deriving DecidableEq

/-- One streamed Gemini chunk: optional text plus candidates. -/
structure GChunk where
  text : Option String
  candidates : List GCandidate
deriving DecidableEq

/-- An entry of `pending_calls`. -/
structure PendingCall where
  id : String
  name : String
  args : ArgsMap
deriving DecidableEq

/-- Per-round mutable state of the Gemini loop. -/
structure GState where
  assistant_text : String
  pending_calls : List PendingCall
deriving DecidableEq

/-- Gemini conversation entries (`contents`): plain text messages with a
role, or synthesized `function_response` tool messages. -/
inductive GMessage where
  | textContent (role : String) (text : String)
  | functionResponse (name : String) (response : JObject)
deriving DecidableEq

/-- The response to one `generate_content(..., stream=True)` call,
analogous to `OARoundResp`. -/
structure GRoundResp where
  chunks : List GChunk
  exn : Option String
deriving DecidableEq

/-- Abstract Gemini provider. -/
abbrev GProvider := List GMessage → GRoundResp

/-- The synthetic Gemini call identifier
`f"gemini-\x7bname\x7d-\x7blen(pending_calls)\x7d-\x7bround_idx\x7d"`. -/
def gmCallId (name : String) (pendingLen roundIdx : Nat) : String :=
  "gemini-" ++ name ++ "-" ++ toString pendingLen ++ "-" ++ toString roundIdx

/-- Process one part: a truthy-named `function_call` mints a call id,
appends a pending call and yields one `tool_args_delta` carrying the full
serialized argument mapping. -/
def gmApplyPart (roundIdx : Nat) (dumps : DumpJson) (st : GState) (p : GPart) :
    GState × List AgentEvent :=
  match p.function_call with
  | none => (st, [])
  | some fc =>
    match strTruthy fc.name with
    | none => (st, [])
    | some name =>
      let args := fc.args.getD []
      let cid := gmCallId name st.pending_calls.length roundIdx
      ({ st with pending_calls := st.pending_calls ++ [⟨cid, name, args⟩] },
       [AgentEvent.tool_args_delta cid (dumps args)])

/-- Fold over the parts of one content. -/
def gmApplyParts (roundIdx : Nat) (dumps : DumpJson) :
    GState → List GPart → GState × List AgentEvent
  | st, [] => (st, [])
  | st, p :: ps =>
    let a := gmApplyPart roundIdx dumps st p
    let b := gmApplyParts roundIdx dumps a.1 ps
    (b.1, a.2 ++ b.2)

/-- Fold over the candidates of one chunk (a falsy content is skipped). -/
def gmApplyCandidates (roundIdx : Nat) (dumps : DumpJson) :
    GState → List GCandidate → GState × List AgentEvent
  | st, [] => (st, [])
  | st, cand :: cands =>
    let a := match cand.content with
      | none => (st, ([] : List AgentEvent))
      | some content => gmApplyParts roundIdx dumps st content.parts
    let b := gmApplyCandidates roundIdx dumps a.1 cands
    (b.1, a.2 ++ b.2)

/-- Consume one Gemini chunk: truthy text yields `text_delta` and is
accumulated, then the candidates are scanned for function calls. -/
def gmProcessChunk (roundIdx : Nat) (dumps : DumpJson) (st : GState) (c : GChunk) :
    GState × List AgentEvent :=
  let p : GState × List AgentEvent :=
    match strTruthy c.text with
    | some t => ({ st with assistant_text := st.assistant_text ++ t },
                 [AgentEvent.text_delta t])
    | none => (st, [])
  let q := gmApplyCandidates roundIdx dumps p.1 c.candidates
  (q.1, p.2 ++ q.2)

/-- Consume the whole chunk stream of one Gemini round. -/
def gmProcessChunks (roundIdx : Nat) (dumps : DumpJson) :
    GState → List GChunk → GState × List AgentEvent
  | st, [] => (st, [])
  | st, c :: cs =>
    let p := gmProcessChunk roundIdx dumps st c
    let q := gmProcessChunks roundIdx dumps p.1 cs
    (q.1, p.2 ++ q.2)

/-- Round state after the chunk loop, from the fresh empty state. -/
def gmChunkState (roundIdx : Nat) (dumps : DumpJson) (chunks : List GChunk) : GState :=
  (gmProcessChunks roundIdx dumps ⟨"", []⟩ chunks).1

/-- Events yielded during the chunk loop of a Gemini round. -/
def gmChunkEvents (roundIdx : Nat) (dumps : DumpJson) (chunks : List GChunk) :
    List AgentEvent :=
  (gmProcessChunks roundIdx dumps ⟨"", []⟩ chunks).2

/-- Execute the pending calls of a Gemini round in order (`call["args"] or
\x7b\x7d` is the identity here because an absent mapping was already replaced by
the empty one): yield `tool_call`, invoke, yield `tool_result`, build the
`function_response` messages; the third component reports a tool
exception. -/
def gmExecCalls (runTool : RunToolFn) :
    List PendingCall → List AgentEvent × List GMessage × Option String
  | [] => ([], [], none)
  | c :: rest =>
    let callEv := AgentEvent.tool_call c.name c.id c.args
    match runTool c.name c.args with
    | .error m => ([callEv], [], some m)
    | .ok r =>
      let t := gmExecCalls runTool rest
      (callEv :: AgentEvent.tool_result c.name c.id r :: t.1,
       GMessage.functionResponse c.name r :: t.2.1,
       t.2.2)

/-- One round of `gemini_agent.stream`, with continuation `k` for the
remaining rounds. Mirrors `oaRoundStep`, except that the accumulated
assistant text is appended to the conversation only when truthy. -/
def gmRoundStep (runTool : RunToolFn) (dumps : DumpJson) (roundIdx : Nat)
    (resp : GRoundResp) (contents : List GMessage)
    (k : List GMessage → List AgentEvent) : List AgentEvent :=
  let st := gmChunkState roundIdx dumps resp.chunks
  let chunkEvs := gmChunkEvents roundIdx dumps resp.chunks
  match resp.exn with
  | some m => chunkEvs ++ [AgentEvent.error m]
  | none =>
    if st.pending_calls.isEmpty then chunkEvs ++ [AgentEvent.done]
    else
      let contents1 :=
        if st.assistant_text.isEmpty then contents
        else contents ++ [GMessage.textContent "model" st.assistant_text]
      let t := gmExecCalls runTool st.pending_calls
      match t.2.2 with
      | some m => chunkEvs ++ t.1 ++ [AgentEvent.error m]
      | none => chunkEvs ++ t.1 ++ k (contents1 ++ t.2.1)

/-- The round loop `for round_idx in range(max_tool_rounds)` of
`gemini_agent.stream`: structural recursion on the remaining rounds,
carrying the current `round_idx` (used in minted call ids). -/
def gmStreamGo (provider : GProvider) (runTool : RunToolFn) (dumps : DumpJson)
    (maxToolRounds : Nat) : Nat → Nat → List GMessage → List AgentEvent
  | 0, _, _ => [AgentEvent.error (maxRoundsMessage maxToolRounds)]
  | fuel + 1, roundIdx, contents =>
    gmRoundStep runTool dumps roundIdx (provider contents) contents
      (gmStreamGo provider runTool dumps maxToolRounds fuel (roundIdx + 1))

/-- `_convert_messages_to_contents`: map roles (`assistant` to `model`,
anything other than `user` falls back to `user`) and wrap the text. -/
def convertMessagesToContents (messages : List InMessage) : List GMessage :=
  messages.map fun m =>
    GMessage.textContent
      (if m.role = "assistant" then "model"
       else if m.role = "user" then "user" else "user")
      m.content

/-- `gemini_agent.stream(messages, max_tool_rounds)`. -/
def geminiStream (provider : GProvider) (runTool : RunToolFn) (dumps : DumpJson)
    (messages : List InMessage) (maxToolRounds : Nat) : List AgentEvent :=
  gmStreamGo provider runTool dumps maxToolRounds maxToolRounds 0
    (convertMessagesToContents messages)

/-! ### Tool layer (`tools.py`) -/

/-- The keys of `tool_map` in `run_tool`: the registered tool names. -/
def TOOL_MAP_NAMES : List String :=
  ["get_medication_by_name", "list_medications", "search_users",
   "check_stock_availability", "list_user_prescriptions",
   "request_prescription_refill", "query_medications_flexible",
   "query_medications_with_stock", "query_stock_multiple_stores",
   "list_stores", "query_prescriptions_flexible"]

/-- Parameters without a default in each tool implementation's Python
signature (these are what make `func(**args)` raise the
`missing ... required ...` `TypeError`). -/
def toolRequiredParams (name : String) : List String :=
  if name = "get_medication_by_name" then ["name"]
  else if name = "check_stock_availability" then ["med_id", "store_id"]
  else if name = "list_user_prescriptions" then ["user_id"]
  else if name = "request_prescription_refill" then ["user_id", "prescription_id"]
  else []

/-- All keyword parameters accepted by each tool implementation's Python
signature. -/
def toolAllParams (name : String) : List String :=
  if name = "get_medication_by_name" then ["name"]
  else if name = "list_medications" then ["search_term", "limit"]
  else if name = "search_users" then ["name", "email", "phone", "user_id"]
  else if name = "check_stock_availability" then ["med_id", "store_id"]
  else if name = "list_user_prescriptions" then ["user_id"]
  else if name = "request_prescription_refill" then ["user_id", "prescription_id"]
  else if name = "query_medications_flexible" then
    ["brand_name", "generic_name", "active_ingredient", "form", "strength",
     "rx_required", "limit"]
  else if name = "query_medications_with_stock" then
    ["search_term", "active_ingredient", "form", "rx_required", "store_ids",
     "in_stock_only", "limit"]
  else if name = "query_stock_multiple_stores" then
    ["med_id", "med_name", "store_ids", "in_stock_only"]
  else if name = "list_stores" then ["city"]
  else if name = "query_prescriptions_flexible" then
    ["user_id", "med_id", "med_name", "expiring_soon_days", "has_refills", "limit"]
  else []

/-- The two `TypeError` shapes CPython raises for a keyword call that does
not fit the signature. CPython reports an unexpected keyword before it
reports missing required arguments; only the missing-required message
contains both the words `missing` and `required` that `run_tool` tests
for. -/
inductive KwBindError where
  | unexpectedKeyword (key : String)
  | missingRequired (params : List String)
deriving DecidableEq

/-- CPython keyword-binding check for `func(**args)` against a signature:
first any unexpected keyword, then any missing required parameters. -/
def bindKwargs (required allParams : List String) (args : ArgsMap) :
    Option KwBindError :=
  match (args.map Prod.fst).find? (fun k => !(allParams.contains k)) with
  | some k => some (.unexpectedKeyword k)
  | none =>
    match required.filter (fun r => !((args.map Prod.fst).contains r)) with
    | [] => none
    | ps => some (.missingRequired ps)

/-- `_increment_tool_stat`: run the upsert on the `tool_stats` table via
`exec_sql` (abstracted as `statExec` over an arbitrary store type); any
exception is swallowed, leaving the store as it was. -/
def increment_tool_stat {Db : Type} (statExec : String → Db → Except String Db)
    (tool_name : String) (db : Db) : Db :=
  match statExec tool_name db with
  | .ok db1 => db1
  | .error _ => db

/-- The `\x7b"error": "UNKNOWN_TOOL", "tool": name\x7d` payload. -/
def unknownToolResult (name : String) : JObject :=
  [("error", JValue.str "UNKNOWN_TOOL"), ("tool", JValue.str name)]

/-- The `\x7b"error": "MISSING_REQUIRED_ARGUMENT", "message": ..., "tool":
name\x7d payload (the message is the `TypeError` text). -/
def missingRequiredArgumentResult (name : String) (message : String) : JObject :=
  [("error", JValue.str "MISSING_REQUIRED_ARGUMENT"),
   ("message", JValue.str message), ("tool", JValue.str name)]

/-- Dispatch `func(**args)` for a registered tool: CPython binds the
keywords against the signature (an unexpected keyword raises a
`TypeError` that `run_tool` re-raises; missing required parameters raise
the `TypeError` that `run_tool` converts to a structured payload), then
the tool body runs. Tool bodies are abstracted as `impl` — the claims
never inspect them, only how `run_tool` wraps them. -/
def toolDispatch {Db : Type}
    (impl : String → ArgsMap → Db → Except String (JObject × Db))
    (name : String) (args : ArgsMap) (db : Db) : Except String (JObject × Db) :=
  match bindKwargs (toolRequiredParams name) (toolAllParams name) args with
  | some (.unexpectedKeyword k) =>
    .error (name ++ "() got an unexpected keyword argument " ++ k)
  | some (.missingRequired ps) =>
    .ok (missingRequiredArgumentResult name
      (name ++ "() missing required positional arguments: " ++ String.intercalate ", " ps), db)
  | none => impl name args db

/-- `run_tool(name, args)`: unknown names return the structured
`UNKNOWN_TOOL` payload before anything else runs; registered names first
get the best-effort usage-counter increment, then the keyword-checked
dispatch. -/
def run_tool {Db : Type}
    (impl : String → ArgsMap → Db → Except String (JObject × Db))
    (statExec : String → Db → Except String Db)
    (name : String) (args : ArgsMap) (db : Db) : Except String (JObject × Db) :=
  if TOOL_MAP_NAMES.contains name then
    toolDispatch impl name args (increment_tool_stat statExec name db)
  else
    .ok (unknownToolResult name, db)

/-- The adapter-side view of `run_tool` against a fixed store: the
adapters consume only the returned payload (the store is mutated out of
band by the database). -/
def liftRunTool {Db : Type}
    (impl : String → ArgsMap → Db → Except String (JObject × Db))
    (statExec : String → Db → Except String Db) (db : Db) : RunToolFn :=
  fun name args => (run_tool impl statExec name args db).map Prod.fst

/-! ### `request_prescription_refill` and its data store -/

/-- Lexicographic order on strings as a computable Boolean, modelling the
Python `<` comparison between ISO date strings in
`rx["expires_at"] < datetime.utcnow().date().isoformat()`. -/
def charListLt : List Char → List Char → Bool
  | [], [] => false
  | [], _ :: _ => true
  | _ :: _, [] => false
  | c :: cs, d :: ds => if c = d then charListLt cs ds else decide (c < d)

/-- String version of `charListLt`. -/
def strLtB (s t : String) : Bool := charListLt s.data t.data

/-- A row of the `prescriptions` table (the columns the function reads or
writes). -/
structure PrescriptionRow where
  prescription_id : String
  user_id : String
  refills_remaining : Int
  expires_at : String
deriving DecidableEq

/-- A row of the `refill_requests` table, in the column order of the
`INSERT INTO refill_requests VALUES (%s,%s,%s,%s,%s)` statement. -/
structure RefillRequestRow where
  refill_request_id : String
  prescription_id : String
  user_id : String
  status : String
  created_at : String
deriving DecidableEq

/-- The slice of the data store `request_prescription_refill` touches. -/
structure PharmacyDb where
  prescriptions : List PrescriptionRow
  refill_requests : List RefillRequestRow
deriving DecidableEq

/-- `query_one("SELECT * FROM prescriptions WHERE prescription_id=%s")`:
first matching row, if any. -/
def queryPrescription (db : PharmacyDb) (pid : String) : Option PrescriptionRow :=
  db.prescriptions.find? (fun r => r.prescription_id == pid)

/-- Rejection payload `\x7b"accepted": False, "error": e\x7d`. -/
def refillRejection (e : String) : JObject :=
  [("accepted", JValue.jbool false), ("error", JValue.str e)]

/-- `request_prescription_refill(user_id, prescription_id)` over the store,
with the three `datetime.utcnow()` readings passed in (`today` for the
expiry comparison, `rridTimestamp` for the generated request id,
`createdAt` for the inserted row). Returns the result payload and the
updated store. -/
def request_prescription_refill (today rridTimestamp createdAt : String)
    (db : PharmacyDb) (user_id prescription_id : String) : JObject × PharmacyDb :=
  match queryPrescription db prescription_id with
  | none => (refillRejection "NOT_FOUND", db)
  | some rx =>
    if rx.user_id ≠ user_id then (refillRejection "UNAUTHORIZED", db)
    else if rx.refills_remaining ≤ 0 then (refillRejection "NO_REFILLS", db)
    else if strLtB rx.expires_at today then (refillRejection "EXPIRED", db)
    else
      let rrid := "RR-" ++ rridTimestamp ++ "-" ++ prescription_id
      let db1 : PharmacyDb :=
        { db with refill_requests :=
            db.refill_requests ++ [⟨rrid, prescription_id, user_id, "submitted", createdAt⟩] }
      let db2 : PharmacyDb :=
        { db1 with prescriptions :=
            db1.prescriptions.map fun r =>
              if r.prescription_id == prescription_id then
                { r with refills_remaining := r.refills_remaining - 1 }
              else r }
      ([("accepted", JValue.jbool true), ("refill_request_id", JValue.str rrid),
        ("status", JValue.str "submitted"), ("eta_hours", JValue.num 4)], db2)

/-! ### Derived definitions used to state the claims -/

/-- The event sequence ends in exactly one terminal event: it is a
non-terminal prefix followed by a single `done` or `error`. -/
def TerminatesOnce (es : List AgentEvent) : Prop :=
  ∃ pre t, es = pre ++ [t] ∧ isTerminal t = true ∧ ∀ e ∈ pre, isTerminal e = false

/-- Concatenation of the per-round event blocks of the first `i` rounds. -/
def eventBlocks (f : Nat → List AgentEvent) : Nat → List AgentEvent
  | 0 => []
  | i + 1 => eventBlocks f i ++ f i

/-- A provider response that makes an OpenAI round a completed tool round:
no provider exception, at least one finalized tool call, and no tool
raised — the loop proceeds to the next round. -/
def OACleanToolRound (runTool : RunToolFn) (parse : ParseArgs) (dumps : DumpJson)
    (resp : OARoundResp) : Prop :=
  resp.exn = none ∧
    (oaChunkState resp.chunks).tool_calls.isEmpty = false ∧
    (execToolCalls runTool parse dumps (oaChunkState resp.chunks).tool_calls).2.2 = none

/-- All events yielded during one completed OpenAI tool round. -/
def oaRoundEvents (runTool : RunToolFn) (parse : ParseArgs) (dumps : DumpJson)
    (chunks : List OAChunk) : List AgentEvent :=
  oaChunkEvents chunks ++ (execToolCalls runTool parse dumps (oaFinalized chunks)).1

/-- Conversation state after one completed OpenAI tool round: the
assistant message followed by the synthesized tool-role messages. -/
def oaNextConv (runTool : RunToolFn) (parse : ParseArgs) (dumps : DumpJson)
    (msgs : List ChatMessage) (resp : OARoundResp) : List ChatMessage :=
  (msgs ++ [ChatMessage.assistantToolCalls (oaChunkState resp.chunks).content
    (oaChunkState resp.chunks).tool_calls]) ++
    (execToolCalls runTool parse dumps (oaChunkState resp.chunks).tool_calls).2.1

/-- The conversation the OpenAI adapter sends to the provider at round
`j`, assuming rounds `0 .. j-1` were completed tool rounds. -/
def oaConvs (provider : Provider) (runTool : RunToolFn) (parse : ParseArgs)
    (dumps : DumpJson) (msgs0 : List ChatMessage) : Nat → List ChatMessage
  | 0 => msgs0
  | j + 1 =>
    oaNextConv runTool parse dumps (oaConvs provider runTool parse dumps msgs0 j)
      (provider (oaConvs provider runTool parse dumps msgs0 j))

/-- A provider response that makes a Gemini round (at round index
`roundIdx`) a completed tool round. -/
def GMCleanToolRound (runTool : RunToolFn) (dumps : DumpJson) (roundIdx : Nat)
    (resp : GRoundResp) : Prop :=
  resp.exn = none ∧
    (gmChunkState roundIdx dumps resp.chunks).pending_calls.isEmpty = false ∧
    (gmExecCalls runTool (gmChunkState roundIdx dumps resp.chunks).pending_calls).2.2 = none

/-- All events yielded during one completed Gemini tool round. -/
def gmRoundEvents (runTool : RunToolFn) (dumps : DumpJson) (roundIdx : Nat)
    (chunks : List GChunk) : List AgentEvent :=
  gmChunkEvents roundIdx dumps chunks ++
    (gmExecCalls runTool (gmChunkState roundIdx dumps chunks).pending_calls).1

/-- Conversation state after one completed Gemini tool round. -/
def gmNextConv (runTool : RunToolFn) (dumps : DumpJson) (roundIdx : Nat)
    (contents : List GMessage) (resp : GRoundResp) : List GMessage :=
  (if (gmChunkState roundIdx dumps resp.chunks).assistant_text.isEmpty then contents
   else contents ++ [GMessage.textContent "model"
     (gmChunkState roundIdx dumps resp.chunks).assistant_text]) ++
    (gmExecCalls runTool (gmChunkState roundIdx dumps resp.chunks).pending_calls).2.1

/-- The conversation the Gemini adapter sends at the `j`-th round after
base round index `r0`, assuming completed tool rounds so far. -/
def gmConvs (provider : GProvider) (runTool : RunToolFn) (dumps : DumpJson)
    (r0 : Nat) (contents0 : List GMessage) : Nat → List GMessage
  | 0 => contents0
  | j + 1 =>
    gmNextConv runTool dumps (r0 + j) (gmConvs provider runTool dumps r0 contents0 j)
      (provider (gmConvs provider runTool dumps r0 contents0 j))


/-- The initial `chat_messages` list built by `openai_agent.stream` from
the incoming messages. -/
def oaInitConv (messages : List InMessage) : List ChatMessage :=
  messages.map fun m => ChatMessage.basic m.role m.content

/-- Within one event list there are positions `i1 < i2 < i3` holding a
`tool_args_delta`, a `tool_call` and a `tool_result` that all carry the
same call identifier `cid`. -/
def OrderedToolTriple (es : List AgentEvent) (cid : String) : Prop :=
  ∃ (i1 i2 i3 : Nat) (d nm : String) (args : ArgsMap) (nm2 : String) (res : JObject),
    i1 < i2 ∧ i2 < i3 ∧
    es[i1]? = some (AgentEvent.tool_args_delta cid d) ∧
    es[i2]? = some (AgentEvent.tool_call nm cid args) ∧
    es[i3]? = some (AgentEvent.tool_result nm2 cid res)

/-- Completed-tool-round conditions are decidable, so witnesses can check
them on concrete fixtures. -/
instance instDecOACleanToolRound (runTool : RunToolFn) (parse : ParseArgs)
    (dumps : DumpJson) (resp : OARoundResp) :
    Decidable (OACleanToolRound runTool parse dumps resp) := by
  unfold OACleanToolRound
  infer_instance

/-- Gemini analogue of `instDecOACleanToolRound`. -/
instance instDecGMCleanToolRound (runTool : RunToolFn) (dumps : DumpJson)
    (roundIdx : Nat) (resp : GRoundResp) :
    Decidable (GMCleanToolRound runTool dumps roundIdx resp) := by
  unfold GMCleanToolRound
  infer_instance

/-! ### Concrete fixtures used by witnesses and counterexamples -/

/-- Fixture input conversation. -/
def witMsgs : List InMessage := [⟨"user", "hi"⟩]

/-- Fixture tool runner: every tool returns successfully. -/
def witRunTool : RunToolFn := fun _ _ => .ok [("ok", JValue.jbool true)]

/-- Fixture argument parser that always reports malformed JSON. -/
def witParse : ParseArgs := fun _ => none

/-- Fixture serializer. -/
def witDumps : DumpJson := fun _ => ""

/-- Fixture OpenAI chunk: one positional tool-call delta carrying index,
id, name, and an argument fragment in a single delta. -/
def oaWitChunk : OAChunk :=
  some ⟨none, some [⟨some 0, some "call-1", some ⟨some "tool-x", some "ax"⟩⟩]⟩

/-- Fixture OpenAI chunk carrying a tool-call delta with no argument
fragment at all. -/
def oaWitChunkNoArgs : OAChunk :=
  some ⟨none, some [⟨some 0, some "call-1", some ⟨some "tool-x", none⟩⟩]⟩

/-- Fixture OpenAI chunk carrying only assistant text. -/
def oaWitChunkText : OAChunk := some ⟨some "hello", none⟩

/-- Fixture round response finalizing exactly one tool call. -/
def oaWitToolResp : OARoundResp := ⟨[oaWitChunk], none⟩

/-- Fixture round response with text only (ends the conversation). -/
def oaWitTextResp : OARoundResp := ⟨[oaWitChunkText], none⟩

/-- Fixture provider that requests a tool on every round. -/
def oaWitProviderLoop : Provider := fun _ => oaWitToolResp

/-- Fixture provider: one tool round, then a provider exception. -/
def oaWitProviderExn : Provider := fun msgs =>
  if msgs.length ≤ 1 then oaWitToolResp else ⟨[], some "boom"⟩

/-- Fixture provider: one tool round, then a text-only response. -/
def oaWitProviderOnce : Provider := fun msgs =>
  if msgs.length ≤ 1 then oaWitToolResp else oaWitTextResp

/-- Fixture provider: one tool round whose call streams no argument
fragment, then a text-free final response. -/
def oaWitProviderNoArgs : Provider := fun msgs =>
  if msgs.length ≤ 1 then ⟨[oaWitChunkNoArgs], none⟩ else ⟨[], none⟩

/-- Fixture provider answering with text only on the first round. -/
def oaWitProviderText : Provider := fun _ => oaWitTextResp

/-- Fixture Gemini chunk with one function call. -/
def gmWitChunk : GChunk :=
  ⟨none, [⟨some ⟨[⟨some ⟨some "tool-x", some [("a", JValue.num 1)]⟩⟩]⟩⟩]⟩

/-- Fixture Gemini chunk with text only. -/
def gmWitChunkText : GChunk := ⟨some "hello", []⟩

/-- Fixture Gemini round response finalizing exactly one function call. -/
def gmWitToolResp : GRoundResp := ⟨[gmWitChunk], none⟩

/-- Fixture Gemini round response with text only. -/
def gmWitTextResp : GRoundResp := ⟨[gmWitChunkText], none⟩

/-- Fixture Gemini provider requesting a tool on every round. -/
def gmWitProviderLoop : GProvider := fun _ => gmWitToolResp

/-- Fixture Gemini provider: one tool round, then a provider exception. -/
def gmWitProviderExn : GProvider := fun contents =>
  if contents.length ≤ 1 then gmWitToolResp else ⟨[], some "boom"⟩

/-- Fixture Gemini provider: one tool round, then a text-only response. -/
def gmWitProviderOnce : GProvider := fun contents =>
  if contents.length ≤ 1 then gmWitToolResp else gmWitTextResp

/-- Fixture Gemini provider answering with text only on the first round. -/
def gmWitProviderText : GProvider := fun _ => gmWitTextResp

/-! ### General lemmas: which events each phase can emit -/

lemma applyToolCallDelta_not_terminal (tcs : List ToolCallAcc) (d : ToolCallDelta) :
    ∀ e ∈ (applyToolCallDelta tcs d).2, isTerminal e = false := by
  unfold applyToolCallDelta
  rcases d with ⟨idx, di, df⟩
  rcases idx with _ | i
  · simp
  · rcases df with _ | f
    · simp
    · rcases h : strTruthy f.arguments with _ | a
      · simp [h]
      · simp only [h]
        intro e he
        simp at he
        subst he
        rfl

lemma applyToolCallDelta_args_delta (tcs : List ToolCallAcc) (d : ToolCallDelta) :
    ∀ e ∈ (applyToolCallDelta tcs d).2, isToolArgsDelta e = true := by
  unfold applyToolCallDelta
  rcases d with ⟨idx, di, df⟩
  rcases idx with _ | i
  · simp
  · rcases df with _ | f
    · simp
    · rcases h : strTruthy f.arguments with _ | a
      · simp [h]
      · simp only [h]
        intro e he
        simp at he
        subst he
        rfl

lemma applyToolCallDeltas_not_terminal (tcs : List ToolCallAcc) (ds : List ToolCallDelta) :
    ∀ e ∈ (applyToolCallDeltas tcs ds).2, isTerminal e = false := by
  induction ds generalizing tcs with
  | nil => simp [applyToolCallDeltas]
  | cons d ds ih =>
    intro e he
    simp only [applyToolCallDeltas, List.mem_append] at he
    rcases he with he | he
    · exact applyToolCallDelta_not_terminal tcs d e he
    · exact ih _ e he

lemma oaProcessChunk_not_terminal (st : OAState) (c : OAChunk) :
    ∀ e ∈ (oaProcessChunk st c).2, isTerminal e = false := by
  unfold oaProcessChunk
  rcases c with _ | delta
  · simp
  · rcases h : strTruthy delta.content with _ | t
    · rcases htc : delta.tool_calls with _ | ⟨_ | ⟨d, ds⟩⟩ <;>
        simp only [h, htc] <;> intro e he
      · simp at he
      · simp at he
      · exact applyToolCallDeltas_not_terminal _ _ e (by simpa using he)
    · rcases htc : delta.tool_calls with _ | ⟨_ | ⟨d, ds⟩⟩ <;>
        simp only [h, htc] <;> intro e he
      · simp at he; subst he; rfl
      · simp at he; subst he; rfl
      · rcases List.mem_append.mp he with he | he
        · simp at he; subst he; rfl
        · exact applyToolCallDeltas_not_terminal _ _ e (by simpa using he)

lemma oaProcessChunks_not_terminal (st : OAState) (cs : List OAChunk) :
    ∀ e ∈ (oaProcessChunks st cs).2, isTerminal e = false := by
  induction cs generalizing st with
  | nil => simp [oaProcessChunks]
  | cons c cs ih =>
    intro e he
    simp only [oaProcessChunks, List.mem_append] at he
    rcases he with he | he
    · exact oaProcessChunk_not_terminal st c e he
    · exact ih _ e he

lemma oaChunkEvents_not_terminal (chunks : List OAChunk) :
    ∀ e ∈ oaChunkEvents chunks, isTerminal e = false :=
  oaProcessChunks_not_terminal _ chunks

lemma execToolCalls_not_terminal (runTool : RunToolFn) (parse : ParseArgs)
    (dumps : DumpJson) (tcs : List ToolCallAcc) :
    ∀ e ∈ (execToolCalls runTool parse dumps tcs).1, isTerminal e = false := by
  induction tcs with
  | nil => simp [execToolCalls]
  | cons tc rest ih =>
    intro e he
    simp only [execToolCalls] at he
    rcases h : runTool tc.name ((parse tc.arguments).getD []) with m | r <;>
      simp only [h] at he
    · simp at he; subst he; rfl
    · simp only [List.mem_cons] at he
      rcases he with he | he | he
      · subst he; rfl
      · subst he; rfl
      · exact ih e he

lemma oaRoundStep_terminatesOnce (runTool : RunToolFn) (parse : ParseArgs)
    (dumps : DumpJson) (resp : OARoundResp) (msgs : List ChatMessage)
    (k : List ChatMessage → List AgentEvent)
    (hk : ∀ msgs2, TerminatesOnce (k msgs2)) :
    TerminatesOnce (oaRoundStep runTool parse dumps resp msgs k) := by
  unfold oaRoundStep
  rcases hexn : resp.exn with _ | m
  · simp only
    rcases hemp : (oaChunkState resp.chunks).tool_calls.isEmpty with _ | _
    · simp only [hemp, Bool.false_eq_true, if_false]
      rcases hx : (execToolCalls runTool parse dumps (oaChunkState resp.chunks).tool_calls).2.2
        with _ | m
      · obtain ⟨pre, t, hkeq, hterm, hpre⟩ := hk
          ((msgs ++ [ChatMessage.assistantToolCalls (oaChunkState resp.chunks).content
            (oaChunkState resp.chunks).tool_calls]) ++
            (execToolCalls runTool parse dumps (oaChunkState resp.chunks).tool_calls).2.1)
        refine ⟨oaChunkEvents resp.chunks ++
          (execToolCalls runTool parse dumps (oaChunkState resp.chunks).tool_calls).1 ++ pre,
          t, ?_, hterm, ?_⟩
        · rw [hkeq]; simp
        · intro e he
          rcases List.mem_append.mp he with he | he
          · rcases List.mem_append.mp he with he | he
            · exact oaChunkEvents_not_terminal _ e he
            · exact execToolCalls_not_terminal _ _ _ _ e he
          · exact hpre e he
      · refine ⟨oaChunkEvents resp.chunks ++
          (execToolCalls runTool parse dumps (oaChunkState resp.chunks).tool_calls).1,
          AgentEvent.error m, by simp, rfl, ?_⟩
        intro e he
        rcases List.mem_append.mp he with he | he
        · exact oaChunkEvents_not_terminal _ e he
        · exact execToolCalls_not_terminal _ _ _ _ e he
    · simp only [hemp, if_true]
      exact ⟨oaChunkEvents resp.chunks, AgentEvent.done, rfl, rfl,
        fun e he => oaChunkEvents_not_terminal _ e he⟩
  · exact ⟨oaChunkEvents resp.chunks, AgentEvent.error m, rfl, rfl,
      fun e he => oaChunkEvents_not_terminal _ e he⟩

lemma oaStreamGo_terminatesOnce (provider : Provider) (runTool : RunToolFn)
    (parse : ParseArgs) (dumps : DumpJson) (maxToolRounds fuel : Nat)
    (msgs : List ChatMessage) :
    TerminatesOnce (oaStreamGo provider runTool parse dumps maxToolRounds fuel msgs) := by
  induction fuel generalizing msgs with
  | zero => exact ⟨[], AgentEvent.error (maxRoundsMessage maxToolRounds), rfl, rfl, by simp⟩
  | succ fuel ih =>
    exact oaRoundStep_terminatesOnce _ _ _ _ _ _ (fun msgs2 => ih msgs2)

lemma gmApplyPart_not_terminal (roundIdx : Nat) (dumps : DumpJson) (st : GState)
    (p : GPart) : ∀ e ∈ (gmApplyPart roundIdx dumps st p).2, isTerminal e = false := by
  unfold gmApplyPart
  rcases p with ⟨_ | fc⟩
  · simp
  · rcases h : strTruthy fc.name with _ | name
    · simp [h]
    · simp only [h]
      intro e he
      simp at he
      subst he
      rfl

lemma gmApplyParts_not_terminal (roundIdx : Nat) (dumps : DumpJson) (st : GState)
    (ps : List GPart) : ∀ e ∈ (gmApplyParts roundIdx dumps st ps).2, isTerminal e = false := by
  induction ps generalizing st with
  | nil => simp [gmApplyParts]
  | cons p ps ih =>
    intro e he
    simp only [gmApplyParts, List.mem_append] at he
    rcases he with he | he
    · exact gmApplyPart_not_terminal _ _ st p e he
    · exact ih _ e he

lemma gmApplyCandidates_not_terminal (roundIdx : Nat) (dumps : DumpJson) (st : GState)
    (cs : List GCandidate) :
    ∀ e ∈ (gmApplyCandidates roundIdx dumps st cs).2, isTerminal e = false := by
  induction cs generalizing st with
  | nil => simp [gmApplyCandidates]
  | cons cand cands ih =>
    intro e he
    simp only [gmApplyCandidates, List.mem_append] at he
    rcases hc : cand.content with _ | content <;> simp only [hc] at he
    · rcases he with he | he
      · simp at he
      · exact ih _ e he
    · rcases he with he | he
      · exact gmApplyParts_not_terminal _ _ st content.parts e he
      · exact ih _ e he

lemma gmProcessChunk_not_terminal (roundIdx : Nat) (dumps : DumpJson) (st : GState)
    (c : GChunk) : ∀ e ∈ (gmProcessChunk roundIdx dumps st c).2, isTerminal e = false := by
  unfold gmProcessChunk
  rcases h : strTruthy c.text with _ | t <;> simp only [h] <;> intro e he
  · exact gmApplyCandidates_not_terminal _ _ _ _ e (by simpa using he)
  · rcases List.mem_append.mp he with he | he
    · simp at he; subst he; rfl
    · exact gmApplyCandidates_not_terminal _ _ _ _ e he

lemma gmProcessChunks_not_terminal (roundIdx : Nat) (dumps : DumpJson) (st : GState)
    (cs : List GChunk) :
    ∀ e ∈ (gmProcessChunks roundIdx dumps st cs).2, isTerminal e = false := by
  induction cs generalizing st with
  | nil => simp [gmProcessChunks]
  | cons c cs ih =>
    intro e he
    simp only [gmProcessChunks, List.mem_append] at he
    rcases he with he | he
    · exact gmProcessChunk_not_terminal _ _ st c e he
    · exact ih _ e he

lemma gmChunkEvents_not_terminal (roundIdx : Nat) (dumps : DumpJson)
    (chunks : List GChunk) : ∀ e ∈ gmChunkEvents roundIdx dumps chunks, isTerminal e = false :=
  gmProcessChunks_not_terminal roundIdx dumps _ chunks

lemma gmExecCalls_not_terminal (runTool : RunToolFn) (cs : List PendingCall) :
    ∀ e ∈ (gmExecCalls runTool cs).1, isTerminal e = false := by
  induction cs with
  | nil => simp [gmExecCalls]
  | cons c rest ih =>
    intro e he
    simp only [gmExecCalls] at he
    rcases h : runTool c.name c.args with m | r <;> simp only [h] at he
    · simp at he; subst he; rfl
    · simp only [List.mem_cons] at he
      rcases he with he | he | he
      · subst he; rfl
      · subst he; rfl
      · exact ih e he

lemma gmRoundStep_terminatesOnce (runTool : RunToolFn) (dumps : DumpJson)
    (roundIdx : Nat) (resp : GRoundResp) (contents : List GMessage)
    (k : List GMessage → List AgentEvent)
    (hk : ∀ contents2, TerminatesOnce (k contents2)) :
    TerminatesOnce (gmRoundStep runTool dumps roundIdx resp contents k) := by
  unfold gmRoundStep
  rcases hexn : resp.exn with _ | m
  · simp only
    rcases hemp : (gmChunkState roundIdx dumps resp.chunks).pending_calls.isEmpty with _ | _
    · simp only [hemp, Bool.false_eq_true, if_false]
      rcases hx : (gmExecCalls runTool (gmChunkState roundIdx dumps resp.chunks).pending_calls).2.2
        with _ | m
      · obtain ⟨pre, t, hkeq, hterm, hpre⟩ := hk
          ((if (gmChunkState roundIdx dumps resp.chunks).assistant_text.isEmpty then contents
            else contents ++ [GMessage.textContent "model"
              (gmChunkState roundIdx dumps resp.chunks).assistant_text]) ++
            (gmExecCalls runTool (gmChunkState roundIdx dumps resp.chunks).pending_calls).2.1)
        refine ⟨gmChunkEvents roundIdx dumps resp.chunks ++
          (gmExecCalls runTool (gmChunkState roundIdx dumps resp.chunks).pending_calls).1 ++ pre,
          t, ?_, hterm, ?_⟩
        · rw [hkeq]; simp
        · intro e he
          rcases List.mem_append.mp he with he | he
          · rcases List.mem_append.mp he with he | he
            · exact gmChunkEvents_not_terminal _ _ _ e he
            · exact gmExecCalls_not_terminal _ _ e he
          · exact hpre e he
      · refine ⟨gmChunkEvents roundIdx dumps resp.chunks ++
          (gmExecCalls runTool (gmChunkState roundIdx dumps resp.chunks).pending_calls).1,
          AgentEvent.error m, by simp, rfl, ?_⟩
        intro e he
        rcases List.mem_append.mp he with he | he
        · exact gmChunkEvents_not_terminal _ _ _ e he
        · exact gmExecCalls_not_terminal _ _ e he
    · simp only [hemp, if_true]
      exact ⟨gmChunkEvents roundIdx dumps resp.chunks, AgentEvent.done, rfl, rfl,
        fun e he => gmChunkEvents_not_terminal _ _ _ e he⟩
  · exact ⟨gmChunkEvents roundIdx dumps resp.chunks, AgentEvent.error m, rfl, rfl,
      fun e he => gmChunkEvents_not_terminal _ _ _ e he⟩

lemma gmStreamGo_terminatesOnce (provider : GProvider) (runTool : RunToolFn)
    (dumps : DumpJson) (maxToolRounds fuel roundIdx : Nat) (contents : List GMessage) :
    TerminatesOnce (gmStreamGo provider runTool dumps maxToolRounds fuel roundIdx contents) := by
  induction fuel generalizing roundIdx contents with
  | zero => exact ⟨[], AgentEvent.error (maxRoundsMessage maxToolRounds), rfl, rfl, by simp⟩
  | succ fuel ih =>
    exact gmRoundStep_terminatesOnce _ _ _ _ _ _ (fun c2 => ih _ c2)

/-! ### Round-by-round characterization of the loops -/

lemma oaStreamGo_clean_step (provider : Provider) (runTool : RunToolFn)
    (parse : ParseArgs) (dumps : DumpJson) (maxToolRounds fuel : Nat)
    (msgs : List ChatMessage)
    (h : OACleanToolRound runTool parse dumps (provider msgs)) :
    oaStreamGo provider runTool parse dumps maxToolRounds (fuel + 1) msgs =
      oaRoundEvents runTool parse dumps (provider msgs).chunks ++
        oaStreamGo provider runTool parse dumps maxToolRounds fuel
          (oaNextConv runTool parse dumps msgs (provider msgs)) := by
  obtain ⟨h1, h2, h3⟩ := h
  simp only [oaStreamGo, oaRoundStep, h1, h2, h3, Bool.false_eq_true, if_false]
  simp [oaRoundEvents, oaFinalized, oaNextConv, List.append_assoc]

lemma oaStreamGo_exn_step (provider : Provider) (runTool : RunToolFn)
    (parse : ParseArgs) (dumps : DumpJson) (maxToolRounds fuel : Nat)
    (msgs : List ChatMessage) (m : String) (h : (provider msgs).exn = some m) :
    oaStreamGo provider runTool parse dumps maxToolRounds (fuel + 1) msgs =
      oaChunkEvents (provider msgs).chunks ++ [AgentEvent.error m] := by
  simp only [oaStreamGo, oaRoundStep, h]

lemma oaStreamGo_done_step (provider : Provider) (runTool : RunToolFn)
    (parse : ParseArgs) (dumps : DumpJson) (maxToolRounds fuel : Nat)
    (msgs : List ChatMessage) (h1 : (provider msgs).exn = none)
    (h2 : (oaChunkState (provider msgs).chunks).tool_calls.isEmpty = true) :
    oaStreamGo provider runTool parse dumps maxToolRounds (fuel + 1) msgs =
      oaChunkEvents (provider msgs).chunks ++ [AgentEvent.done] := by
  simp only [oaStreamGo, oaRoundStep, h1, h2, if_true]

lemma oaStreamGo_clean_rounds (provider : Provider) (runTool : RunToolFn)
    (parse : ParseArgs) (dumps : DumpJson) (maxToolRounds : Nat)
    (msgs0 : List ChatMessage) (i : Nat)
    (h : ∀ j < i, OACleanToolRound runTool parse dumps
      (provider (oaConvs provider runTool parse dumps msgs0 j))) :
    ∀ fuel, oaStreamGo provider runTool parse dumps maxToolRounds (i + fuel) msgs0 =
      eventBlocks (fun j => oaRoundEvents runTool parse dumps
        (provider (oaConvs provider runTool parse dumps msgs0 j)).chunks) i ++
      oaStreamGo provider runTool parse dumps maxToolRounds fuel
        (oaConvs provider runTool parse dumps msgs0 i) := by
  induction i with
  | zero => intro fuel; simp [eventBlocks, oaConvs]
  | succ i ih =>
    intro fuel
    have hstep := oaStreamGo_clean_step provider runTool parse dumps maxToolRounds fuel
      (oaConvs provider runTool parse dumps msgs0 i) (h i (Nat.lt_succ_self i))
    have hi := ih (fun j hj => h j (Nat.lt_succ_of_lt hj)) (fuel + 1)
    have harith : i + 1 + fuel = i + (fuel + 1) := by omega
    rw [harith, hi, hstep]
    simp only [eventBlocks, oaConvs, List.append_assoc]

lemma gmStreamGo_clean_step (provider : GProvider) (runTool : RunToolFn)
    (dumps : DumpJson) (maxToolRounds fuel roundIdx : Nat) (contents : List GMessage)
    (h : GMCleanToolRound runTool dumps roundIdx (provider contents)) :
    gmStreamGo provider runTool dumps maxToolRounds (fuel + 1) roundIdx contents =
      gmRoundEvents runTool dumps roundIdx (provider contents).chunks ++
        gmStreamGo provider runTool dumps maxToolRounds fuel (roundIdx + 1)
          (gmNextConv runTool dumps roundIdx contents (provider contents)) := by
  obtain ⟨h1, h2, h3⟩ := h
  simp only [gmStreamGo, gmRoundStep, h1, h2, h3, Bool.false_eq_true, if_false]
  simp [gmRoundEvents, gmNextConv, List.append_assoc]

lemma gmStreamGo_exn_step (provider : GProvider) (runTool : RunToolFn)
    (dumps : DumpJson) (maxToolRounds fuel roundIdx : Nat) (contents : List GMessage)
    (m : String) (h : (provider contents).exn = some m) :
    gmStreamGo provider runTool dumps maxToolRounds (fuel + 1) roundIdx contents =
      gmChunkEvents roundIdx dumps (provider contents).chunks ++ [AgentEvent.error m] := by
  simp only [gmStreamGo, gmRoundStep, h]

lemma gmStreamGo_done_step (provider : GProvider) (runTool : RunToolFn)
    (dumps : DumpJson) (maxToolRounds fuel roundIdx : Nat) (contents : List GMessage)
    (h1 : (provider contents).exn = none)
    (h2 : (gmChunkState roundIdx dumps (provider contents).chunks).pending_calls.isEmpty = true) :
    gmStreamGo provider runTool dumps maxToolRounds (fuel + 1) roundIdx contents =
      gmChunkEvents roundIdx dumps (provider contents).chunks ++ [AgentEvent.done] := by
  simp only [gmStreamGo, gmRoundStep, h1, h2, if_true]

lemma gmStreamGo_clean_rounds (provider : GProvider) (runTool : RunToolFn)
    (dumps : DumpJson) (maxToolRounds : Nat) (r0 : Nat) (contents0 : List GMessage)
    (i : Nat)
    (h : ∀ j < i, GMCleanToolRound runTool dumps (r0 + j)
      (provider (gmConvs provider runTool dumps r0 contents0 j))) :
    ∀ fuel, gmStreamGo provider runTool dumps maxToolRounds (i + fuel) r0 contents0 =
      eventBlocks (fun j => gmRoundEvents runTool dumps (r0 + j)
        (provider (gmConvs provider runTool dumps r0 contents0 j)).chunks) i ++
      gmStreamGo provider runTool dumps maxToolRounds fuel (r0 + i)
        (gmConvs provider runTool dumps r0 contents0 i) := by
  induction i with
  | zero => intro fuel; simp [eventBlocks, gmConvs]
  | succ i ih =>
    intro fuel
    have hstep := gmStreamGo_clean_step provider runTool dumps maxToolRounds fuel (r0 + i)
      (gmConvs provider runTool dumps r0 contents0 i) (h i (Nat.lt_succ_self i))
    have hi := ih (fun j hj => h j (Nat.lt_succ_of_lt hj)) (fuel + 1)
    have harith : i + 1 + fuel = i + (fuel + 1) := by omega
    rw [harith, hi, hstep]
    simp only [eventBlocks, gmConvs, List.append_assoc, Nat.add_succ]

lemma eventBlocks_mem {f : Nat → List AgentEvent} {i : Nat} {e : AgentEvent}
    (he : e ∈ eventBlocks f i) : ∃ j, j < i ∧ e ∈ f j := by
  induction i with
  | zero => simp [eventBlocks] at he
  | succ i ih =>
    rcases List.mem_append.mp he with he | he
    · obtain ⟨j, hj, hm⟩ := ih he
      exact ⟨j, Nat.lt_succ_of_lt hj, hm⟩
    · exact ⟨i, Nat.lt_succ_self i, he⟩

lemma oaRoundEvents_not_terminal (runTool : RunToolFn) (parse : ParseArgs)
    (dumps : DumpJson) (chunks : List OAChunk) :
    ∀ e ∈ oaRoundEvents runTool parse dumps chunks, isTerminal e = false := by
  intro e he
  rcases List.mem_append.mp he with he | he
  · exact oaChunkEvents_not_terminal _ e he
  · exact execToolCalls_not_terminal _ _ _ _ e he

lemma gmRoundEvents_not_terminal (runTool : RunToolFn) (dumps : DumpJson)
    (roundIdx : Nat) (chunks : List GChunk) :
    ∀ e ∈ gmRoundEvents runTool dumps roundIdx chunks, isTerminal e = false := by
  intro e he
  rcases List.mem_append.mp he with he | he
  · exact gmChunkEvents_not_terminal _ _ _ e he
  · exact gmExecCalls_not_terminal _ _ e he

/-! ### Rounds with no finalized tool calls emit only text deltas -/

lemma all_text_delta_eq_map {es : List AgentEvent}
    (h : ∀ e ∈ es, ∃ t, e = AgentEvent.text_delta t) :
    ∃ ds : List String, es = ds.map AgentEvent.text_delta := by
  induction es with
  | nil => exact ⟨[], rfl⟩
  | cons e es ih =>
    obtain ⟨t, ht⟩ := h e (List.mem_cons_self e es)
    obtain ⟨ds, hds⟩ := ih (fun x hx => h x (List.mem_cons_of_mem e hx))
    exact ⟨t :: ds, by simp [ht, hds]⟩

lemma applyToolCallDelta_empty (tcs : List ToolCallAcc) (d : ToolCallDelta)
    (h : (applyToolCallDelta tcs d).1 = []) :
    tcs = [] ∧ (applyToolCallDelta tcs d).2 = [] := by
  unfold applyToolCallDelta at h ⊢
  rcases d with ⟨idx, di, df⟩
  rcases idx with _ | i
  · exact ⟨h, rfl⟩
  · exfalso
    have hcontra : ∀ (L : List ToolCallAcc) (e : ToolCallAcc),
        1 ≤ L.length → L.set i e = [] → False := by
      intro L e hL hset
      have hl2 := congrArg List.length hset
      rw [List.length_set] at hl2
      simp only [List.length_nil] at hl2
      omega
    have hlen : 1 ≤ (tcs ++ List.replicate (i + 1 - tcs.length)
        (⟨"", "", ""⟩ : ToolCallAcc)).length := by
      simp only [List.length_append, List.length_replicate]
      omega
    rcases df with _ | f
    · exact hcontra _ _ hlen h
    · rcases ha : strTruthy f.arguments with _ | a <;> simp only [ha] at h
      · exact hcontra _ _ hlen h
      · exact hcontra _ _ hlen h

lemma applyToolCallDeltas_empty (tcs : List ToolCallAcc) (ds : List ToolCallDelta)
    (h : (applyToolCallDeltas tcs ds).1 = []) :
    tcs = [] ∧ (applyToolCallDeltas tcs ds).2 = [] := by
  induction ds generalizing tcs with
  | nil => exact ⟨h, rfl⟩
  | cons d ds ih =>
    simp only [applyToolCallDeltas] at h ⊢
    obtain ⟨h1, h2⟩ := ih _ h
    obtain ⟨h3, h4⟩ := applyToolCallDelta_empty tcs d h1
    exact ⟨h3, by rw [h4, h2]; rfl⟩

lemma oaProcessChunk_no_calls (st : OAState) (c : OAChunk)
    (h : (oaProcessChunk st c).1.tool_calls = []) :
    st.tool_calls = [] ∧
      ∀ e ∈ (oaProcessChunk st c).2, ∃ t, e = AgentEvent.text_delta t := by
  unfold oaProcessChunk at h ⊢
  rcases c with _ | delta
  · exact ⟨h, by simp⟩
  · rcases hc : strTruthy delta.content with _ | t <;>
      rcases htc : delta.tool_calls with _ | ⟨_ | ⟨d, ds⟩⟩ <;>
      simp only [hc, htc] at h ⊢
    · exact ⟨h, by simp⟩
    · exact ⟨h, by simp⟩
    · obtain ⟨h1, h2⟩ := applyToolCallDeltas_empty _ _ h
      exact ⟨h1, by rw [h2]; simp⟩
    · exact ⟨h, by intro e he; simp at he; exact ⟨t, he⟩⟩
    · exact ⟨h, by intro e he; simp at he; exact ⟨t, he⟩⟩
    · obtain ⟨h1, h2⟩ := applyToolCallDeltas_empty _ _ h
      refine ⟨h1, ?_⟩
      rw [h2]
      intro e he
      simp at he
      exact ⟨t, he⟩

lemma oaProcessChunks_no_calls (st : OAState) (cs : List OAChunk)
    (h : (oaProcessChunks st cs).1.tool_calls = []) :
    st.tool_calls = [] ∧
      ∀ e ∈ (oaProcessChunks st cs).2, ∃ t, e = AgentEvent.text_delta t := by
  induction cs generalizing st with
  | nil => exact ⟨h, by simp [oaProcessChunks]⟩
  | cons c cs ih =>
    simp only [oaProcessChunks] at h ⊢
    obtain ⟨h1, h2⟩ := ih _ h
    obtain ⟨h3, h4⟩ := oaProcessChunk_no_calls st c h1
    refine ⟨h3, ?_⟩
    intro e he
    rcases List.mem_append.mp he with he | he
    · exact h4 e he
    · exact h2 e he

lemma oaChunkEvents_text_only (chunks : List OAChunk)
    (h : (oaChunkState chunks).tool_calls.isEmpty = true) :
    ∃ ds : List String, oaChunkEvents chunks = ds.map AgentEvent.text_delta := by
  have h2 := (oaProcessChunks_no_calls ⟨"", []⟩ chunks (by
    simpa [oaChunkState, List.isEmpty_iff] using h)).2
  exact all_text_delta_eq_map h2

lemma gmApplyPart_no_calls (roundIdx : Nat) (dumps : DumpJson) (st : GState)
    (p : GPart) (h : (gmApplyPart roundIdx dumps st p).1.pending_calls = []) :
    st.pending_calls = [] ∧ (gmApplyPart roundIdx dumps st p).2 = [] := by
  unfold gmApplyPart at h ⊢
  rcases p with ⟨_ | fc⟩
  · exact ⟨h, by trivial⟩
  · rcases hn : strTruthy fc.name with _ | name <;> simp only [hn] at h ⊢
    · exact ⟨h, by trivial⟩
    · simp at h

lemma gmApplyParts_no_calls (roundIdx : Nat) (dumps : DumpJson) (st : GState)
    (ps : List GPart) (h : (gmApplyParts roundIdx dumps st ps).1.pending_calls = []) :
    st.pending_calls = [] ∧ (gmApplyParts roundIdx dumps st ps).2 = [] := by
  induction ps generalizing st with
  | nil => exact ⟨h, rfl⟩
  | cons p ps ih =>
    simp only [gmApplyParts] at h ⊢
    obtain ⟨h1, h2⟩ := ih _ h
    obtain ⟨h3, h4⟩ := gmApplyPart_no_calls roundIdx dumps st p h1
    exact ⟨h3, by rw [h4, h2]; rfl⟩

lemma gmApplyCandidates_no_calls (roundIdx : Nat) (dumps : DumpJson) (st : GState)
    (cs : List GCandidate)
    (h : (gmApplyCandidates roundIdx dumps st cs).1.pending_calls = []) :
    st.pending_calls = [] ∧ (gmApplyCandidates roundIdx dumps st cs).2 = [] := by
  induction cs generalizing st with
  | nil => exact ⟨h, rfl⟩
  | cons cand cands ih =>
    simp only [gmApplyCandidates] at h ⊢
    rcases hc : cand.content with _ | content <;> simp only [hc] at h ⊢
    · obtain ⟨h1, h2⟩ := ih _ h
      exact ⟨h1, by rw [h2]; rfl⟩
    · obtain ⟨h1, h2⟩ := ih _ h
      obtain ⟨h3, h4⟩ := gmApplyParts_no_calls roundIdx dumps st content.parts h1
      exact ⟨h3, by rw [h4, h2]; rfl⟩

lemma gmProcessChunk_no_calls (roundIdx : Nat) (dumps : DumpJson) (st : GState)
    (c : GChunk) (h : (gmProcessChunk roundIdx dumps st c).1.pending_calls = []) :
    st.pending_calls = [] ∧
      ∀ e ∈ (gmProcessChunk roundIdx dumps st c).2, ∃ t, e = AgentEvent.text_delta t := by
  unfold gmProcessChunk at h ⊢
  rcases hc : strTruthy c.text with _ | t <;> simp only [hc] at h ⊢
  · obtain ⟨h1, h2⟩ := gmApplyCandidates_no_calls roundIdx dumps _ _ h
    exact ⟨h1, by rw [h2]; simp⟩
  · obtain ⟨h1, h2⟩ := gmApplyCandidates_no_calls roundIdx dumps _ _ h
    refine ⟨h1, ?_⟩
    rw [h2]
    intro e he
    simp at he
    exact ⟨t, he⟩

lemma gmProcessChunks_no_calls (roundIdx : Nat) (dumps : DumpJson) (st : GState)
    (cs : List GChunk) (h : (gmProcessChunks roundIdx dumps st cs).1.pending_calls = []) :
    st.pending_calls = [] ∧
      ∀ e ∈ (gmProcessChunks roundIdx dumps st cs).2, ∃ t, e = AgentEvent.text_delta t := by
  induction cs generalizing st with
  | nil => exact ⟨h, by simp [gmProcessChunks]⟩
  | cons c cs ih =>
    simp only [gmProcessChunks] at h ⊢
    obtain ⟨h1, h2⟩ := ih _ h
    obtain ⟨h3, h4⟩ := gmProcessChunk_no_calls roundIdx dumps st c h1
    refine ⟨h3, ?_⟩
    intro e he
    rcases List.mem_append.mp he with he | he
    · exact h4 e he
    · exact h2 e he

lemma gmChunkEvents_text_only (roundIdx : Nat) (dumps : DumpJson) (chunks : List GChunk)
    (h : (gmChunkState roundIdx dumps chunks).pending_calls.isEmpty = true) :
    ∃ ds : List String, gmChunkEvents roundIdx dumps chunks = ds.map AgentEvent.text_delta := by
  have h2 := (gmProcessChunks_no_calls roundIdx dumps ⟨"", []⟩ chunks (by
    simpa [gmChunkState, List.isEmpty_iff] using h)).2
  exact all_text_delta_eq_map h2

/-! ### Claim theorems -/

/-- C1: for every input message list and round budget, and every provider,
tool, and JSON (de)serialization behavior, each invocation of
`openai_agent.stream` or `gemini_agent.stream` produces a finite event
sequence (a `List`) containing exactly one terminal event (`done` or
`error`), with no event of any kind after it. -/
theorem C1_exactly_one_terminal_event :
    (∀ (provider : Provider) (runTool : RunToolFn) (parse : ParseArgs)
       (dumps : DumpJson) (messages : List InMessage) (maxToolRounds : Nat),
       TerminatesOnce (openaiStream provider runTool parse dumps messages maxToolRounds)) ∧
    (∀ (provider : GProvider) (runTool : RunToolFn) (dumps : DumpJson)
       (messages : List InMessage) (maxToolRounds : Nat),
       TerminatesOnce (geminiStream provider runTool dumps messages maxToolRounds)) :=
  ⟨fun provider runTool parse dumps _messages maxToolRounds =>
    oaStreamGo_terminatesOnce provider runTool parse dumps maxToolRounds maxToolRounds _,
   fun provider runTool dumps _messages maxToolRounds =>
    gmStreamGo_terminatesOnce provider runTool dumps maxToolRounds maxToolRounds 0 _⟩

lemma openaiStream_eq_go (provider : Provider) (runTool : RunToolFn)
    (parse : ParseArgs) (dumps : DumpJson) (messages : List InMessage)
    (maxToolRounds : Nat) :
    openaiStream provider runTool parse dumps messages maxToolRounds =
      oaStreamGo provider runTool parse dumps maxToolRounds maxToolRounds
        (oaInitConv messages) := rfl

lemma geminiStream_eq_go (provider : GProvider) (runTool : RunToolFn)
    (dumps : DumpJson) (messages : List InMessage) (maxToolRounds : Nat) :
    geminiStream provider runTool dumps messages maxToolRounds =
      gmStreamGo provider runTool dumps maxToolRounds maxToolRounds 0
        (convertMessagesToContents messages) := rfl

/-- C4: for every round budget, if the model requests at least one tool
call on every round up to the budget (completed tool rounds throughout),
the stream performs exactly `max_tool_rounds` rounds — the emitted
sequence is exactly the concatenation of those rounds' event blocks —
and then ends in exactly one `error` whose message mentions the
configured round limit; for both adapters. -/
theorem C4_round_budget_exhausted_with_limit_in_message :
    (∀ (provider : Provider) (runTool : RunToolFn) (parse : ParseArgs)
       (dumps : DumpJson) (messages : List InMessage) (maxToolRounds : Nat),
       (∀ j < maxToolRounds, OACleanToolRound runTool parse dumps
         (provider (oaConvs provider runTool parse dumps (oaInitConv messages) j))) →
       openaiStream provider runTool parse dumps messages maxToolRounds =
         eventBlocks (fun j => oaRoundEvents runTool parse dumps
           (provider (oaConvs provider runTool parse dumps (oaInitConv messages) j)).chunks)
           maxToolRounds ++
           [AgentEvent.error (maxRoundsMessage maxToolRounds)] ∧
       (∃ a b, maxRoundsMessage maxToolRounds = a ++ toString maxToolRounds ++ b) ∧
       (∀ e ∈ eventBlocks (fun j => oaRoundEvents runTool parse dumps
           (provider (oaConvs provider runTool parse dumps (oaInitConv messages) j)).chunks)
           maxToolRounds, isTerminal e = false)) ∧
    (∀ (provider : GProvider) (runTool : RunToolFn) (dumps : DumpJson)
       (messages : List InMessage) (maxToolRounds : Nat),
       (∀ j < maxToolRounds, GMCleanToolRound runTool dumps j
         (provider (gmConvs provider runTool dumps 0 (convertMessagesToContents messages) j))) →
       geminiStream provider runTool dumps messages maxToolRounds =
         eventBlocks (fun j => gmRoundEvents runTool dumps j
           (provider (gmConvs provider runTool dumps 0 (convertMessagesToContents messages) j)).chunks)
           maxToolRounds ++
           [AgentEvent.error (maxRoundsMessage maxToolRounds)] ∧
       (∃ a b, maxRoundsMessage maxToolRounds = a ++ toString maxToolRounds ++ b) ∧
       (∀ e ∈ eventBlocks (fun j => gmRoundEvents runTool dumps j
           (provider (gmConvs provider runTool dumps 0 (convertMessagesToContents messages) j)).chunks)
           maxToolRounds, isTerminal e = false)) := by
  constructor
  · intro provider runTool parse dumps messages maxToolRounds h
    have hmain := oaStreamGo_clean_rounds provider runTool parse dumps maxToolRounds
      (oaInitConv messages) maxToolRounds h 0
    rw [Nat.add_zero] at hmain
    refine ⟨?_, ⟨"Maximum tool call rounds (",
      ") reached. This likely indicates an infinite loop. Please try rephrasing your request or contact support.",
      rfl⟩, ?_⟩
    · rw [openaiStream_eq_go, hmain]
      rfl
    · intro e he
      obtain ⟨j, _, hm⟩ := eventBlocks_mem he
      exact oaRoundEvents_not_terminal _ _ _ _ e hm
  · intro provider runTool dumps messages maxToolRounds h
    have hmain := gmStreamGo_clean_rounds provider runTool dumps maxToolRounds 0
      (convertMessagesToContents messages) maxToolRounds
      (by intro j hj; simpa using h j hj) 0
    rw [Nat.add_zero] at hmain
    refine ⟨?_, ⟨"Maximum tool call rounds (",
      ") reached. This likely indicates an infinite loop. Please try rephrasing your request or contact support.",
      rfl⟩, ?_⟩
    · rw [geminiStream_eq_go, hmain]
      simp only [Nat.zero_add]
      rfl
    · intro e he
      obtain ⟨j, _, hm⟩ := eventBlocks_mem he
      exact gmRoundEvents_not_terminal _ _ _ _ e hm

/-- Witness for C4: with a provider that requests the same tool on every
round and a budget of 2, both adapters emit the two tool rounds' events
and then the round-limit `error`. -/
theorem C4_witness :
    (∀ j < 2, OACleanToolRound witRunTool witParse witDumps
      (oaWitProviderLoop (oaConvs oaWitProviderLoop witRunTool witParse witDumps
        (oaInitConv witMsgs) j))) ∧
    openaiStream oaWitProviderLoop witRunTool witParse witDumps witMsgs 2 =
      [AgentEvent.tool_args_delta "call-1" "ax",
       AgentEvent.tool_call "tool-x" "call-1" [],
       AgentEvent.tool_result "tool-x" "call-1" [("ok", JValue.jbool true)],
       AgentEvent.tool_args_delta "call-1" "ax",
       AgentEvent.tool_call "tool-x" "call-1" [],
       AgentEvent.tool_result "tool-x" "call-1" [("ok", JValue.jbool true)],
       AgentEvent.error (maxRoundsMessage 2)] ∧
    (∀ j < 2, GMCleanToolRound witRunTool witDumps j
      (gmWitProviderLoop (gmConvs gmWitProviderLoop witRunTool witDumps 0
        (convertMessagesToContents witMsgs) j))) ∧
    geminiStream gmWitProviderLoop witRunTool witDumps witMsgs 2 =
      [AgentEvent.tool_args_delta "gemini-tool-x-0-0" "",
       AgentEvent.tool_call "tool-x" "gemini-tool-x-0-0" [("a", JValue.num 1)],
       AgentEvent.tool_result "tool-x" "gemini-tool-x-0-0" [("ok", JValue.jbool true)],
       AgentEvent.tool_args_delta "gemini-tool-x-0-1" "",
       AgentEvent.tool_call "tool-x" "gemini-tool-x-0-1" [("a", JValue.num 1)],
       AgentEvent.tool_result "tool-x" "gemini-tool-x-0-1" [("ok", JValue.jbool true)],
       AgentEvent.error (maxRoundsMessage 2)] :=
  ⟨by decide,
   ((C4_round_budget_exhausted_with_limit_in_message.1 oaWitProviderLoop witRunTool
      witParse witDumps witMsgs 2 (by decide)).1).trans (by decide),
   by decide,
   ((C4_round_budget_exhausted_with_limit_in_message.2 gmWitProviderLoop witRunTool
      witDumps witMsgs 2 (by decide)).1).trans (by decide)⟩

/-- C3: if the provider call raises an exception on round `i` (after the
first `i` rounds were completed tool rounds), the stream consists exactly
of the events of rounds `0 .. i-1`, the events already streamed from
round `i`'s chunks, and a single final `error` carrying the exception's
message — so no event of any round after `i` is emitted and no retry
occurs; for both adapters. -/
theorem C3_provider_exception_single_error :
    (∀ (provider : Provider) (runTool : RunToolFn) (parse : ParseArgs)
       (dumps : DumpJson) (messages : List InMessage) (maxToolRounds i : Nat)
       (m : String),
       i < maxToolRounds →
       (∀ j < i, OACleanToolRound runTool parse dumps
         (provider (oaConvs provider runTool parse dumps (oaInitConv messages) j))) →
       (provider (oaConvs provider runTool parse dumps (oaInitConv messages) i)).exn = some m →
       openaiStream provider runTool parse dumps messages maxToolRounds =
         (eventBlocks (fun j => oaRoundEvents runTool parse dumps
            (provider (oaConvs provider runTool parse dumps (oaInitConv messages) j)).chunks) i ++
          oaChunkEvents (provider (oaConvs provider runTool parse dumps (oaInitConv messages) i)).chunks) ++
         [AgentEvent.error m] ∧
       (∀ e ∈ eventBlocks (fun j => oaRoundEvents runTool parse dumps
            (provider (oaConvs provider runTool parse dumps (oaInitConv messages) j)).chunks) i ++
          oaChunkEvents (provider (oaConvs provider runTool parse dumps (oaInitConv messages) i)).chunks,
          isTerminal e = false)) ∧
    (∀ (provider : GProvider) (runTool : RunToolFn) (dumps : DumpJson)
       (messages : List InMessage) (maxToolRounds i : Nat) (m : String),
       i < maxToolRounds →
       (∀ j < i, GMCleanToolRound runTool dumps j
         (provider (gmConvs provider runTool dumps 0 (convertMessagesToContents messages) j))) →
       (provider (gmConvs provider runTool dumps 0 (convertMessagesToContents messages) i)).exn = some m →
       geminiStream provider runTool dumps messages maxToolRounds =
         (eventBlocks (fun j => gmRoundEvents runTool dumps j
            (provider (gmConvs provider runTool dumps 0 (convertMessagesToContents messages) j)).chunks) i ++
          gmChunkEvents i dumps
            (provider (gmConvs provider runTool dumps 0 (convertMessagesToContents messages) i)).chunks) ++
         [AgentEvent.error m] ∧
       (∀ e ∈ eventBlocks (fun j => gmRoundEvents runTool dumps j
            (provider (gmConvs provider runTool dumps 0 (convertMessagesToContents messages) j)).chunks) i ++
          gmChunkEvents i dumps
            (provider (gmConvs provider runTool dumps 0 (convertMessagesToContents messages) i)).chunks,
          isTerminal e = false)) := by
  constructor
  · intro provider runTool parse dumps messages maxToolRounds i m hlt hclean hexn
    obtain ⟨k, hk⟩ : ∃ k, maxToolRounds - i = k + 1 := ⟨maxToolRounds - i - 1, by omega⟩
    have hmain := oaStreamGo_clean_rounds provider runTool parse dumps maxToolRounds
      (oaInitConv messages) i hclean (maxToolRounds - i)
    have heq : i + (maxToolRounds - i) = maxToolRounds := by omega
    rw [heq] at hmain
    rw [hk, oaStreamGo_exn_step provider runTool parse dumps maxToolRounds k _ m hexn]
      at hmain
    refine ⟨?_, ?_⟩
    · rw [openaiStream_eq_go, hmain, List.append_assoc]
    · intro e he
      rcases List.mem_append.mp he with he | he
      · obtain ⟨j, _, hm⟩ := eventBlocks_mem he
        exact oaRoundEvents_not_terminal _ _ _ _ e hm
      · exact oaChunkEvents_not_terminal _ e he
  · intro provider runTool dumps messages maxToolRounds i m hlt hclean hexn
    obtain ⟨k, hk⟩ : ∃ k, maxToolRounds - i = k + 1 := ⟨maxToolRounds - i - 1, by omega⟩
    have hmain := gmStreamGo_clean_rounds provider runTool dumps maxToolRounds 0
      (convertMessagesToContents messages) i
      (by intro j hj; simpa using hclean j hj) (maxToolRounds - i)
    have heq : i + (maxToolRounds - i) = maxToolRounds := by omega
    rw [heq] at hmain
    rw [hk, gmStreamGo_exn_step provider runTool dumps maxToolRounds k (0 + i) _ m
      (by simpa using hexn)] at hmain
    refine ⟨?_, ?_⟩
    · rw [geminiStream_eq_go, hmain, List.append_assoc]
      simp only [Nat.zero_add]
    · intro e he
      rcases List.mem_append.mp he with he | he
      · obtain ⟨j, _, hm⟩ := eventBlocks_mem he
        exact gmRoundEvents_not_terminal _ _ _ _ e hm
      · exact gmChunkEvents_not_terminal _ _ _ e he

/-- Witness for C3: one completed tool round, then the provider raises
`boom` on round 1 of 3: both adapters emit round 0's events and a single
final `error "boom"` — nothing from rounds 2 onward. -/
theorem C3_witness :
    ((1 : Nat) < 3 ∧
     (∀ j < 1, OACleanToolRound witRunTool witParse witDumps
       (oaWitProviderExn (oaConvs oaWitProviderExn witRunTool witParse witDumps
         (oaInitConv witMsgs) j))) ∧
     (oaWitProviderExn (oaConvs oaWitProviderExn witRunTool witParse witDumps
       (oaInitConv witMsgs) 1)).exn = some "boom") ∧
    openaiStream oaWitProviderExn witRunTool witParse witDumps witMsgs 3 =
      [AgentEvent.tool_args_delta "call-1" "ax",
       AgentEvent.tool_call "tool-x" "call-1" [],
       AgentEvent.tool_result "tool-x" "call-1" [("ok", JValue.jbool true)],
       AgentEvent.error "boom"] ∧
    geminiStream gmWitProviderExn witRunTool witDumps witMsgs 3 =
      [AgentEvent.tool_args_delta "gemini-tool-x-0-0" "",
       AgentEvent.tool_call "tool-x" "gemini-tool-x-0-0" [("a", JValue.num 1)],
       AgentEvent.tool_result "tool-x" "gemini-tool-x-0-0" [("ok", JValue.jbool true)],
       AgentEvent.error "boom"] :=
  ⟨⟨by decide, by decide, by decide⟩,
   ((C3_provider_exception_single_error.1 oaWitProviderExn witRunTool witParse witDumps
      witMsgs 3 1 "boom" (by decide) (by decide) (by decide)).1).trans (by decide),
   ((C3_provider_exception_single_error.2 gmWitProviderExn witRunTool witDumps
      witMsgs 3 1 "boom" (by decide) (by decide) (by decide)).1).trans (by decide)⟩

lemma eventBlocks_congr {f g : Nat → List AgentEvent} {i : Nat}
    (h : ∀ j < i, f j = g j) : eventBlocks f i = eventBlocks g i := by
  induction i with
  | zero => rfl
  | succ i ih =>
    simp only [eventBlocks]
    rw [ih (fun j hj => h j (Nat.lt_succ_of_lt hj)), h i (Nat.lt_succ_self i)]

lemma execToolCalls_singleton (runTool : RunToolFn) (parse : ParseArgs)
    (dumps : DumpJson) (tc : ToolCallAcc) (r : JObject)
    (h : runTool tc.name ((parse tc.arguments).getD []) = .ok r) :
    execToolCalls runTool parse dumps [tc] =
      ([AgentEvent.tool_call tc.name tc.id ((parse tc.arguments).getD []),
        AgentEvent.tool_result tc.name tc.id r],
       [ChatMessage.toolMessage tc.id (dumps r)], none) := by
  simp [execToolCalls, h]

lemma gmExecCalls_singleton (runTool : RunToolFn) (c : PendingCall) (r : JObject)
    (h : runTool c.name c.args = .ok r) :
    gmExecCalls runTool [c] =
      ([AgentEvent.tool_call c.name c.id c.args,
        AgentEvent.tool_result c.name c.id r],
       [GMessage.functionResponse c.name r], none) := by
  simp [gmExecCalls, h]

lemma orderedToolTriple_append (es : List AgentEvent) (cid nm nm2 : String)
    (args : ArgsMap) (res : JObject) (d : String)
    (hd : AgentEvent.tool_args_delta cid d ∈ es) :
    OrderedToolTriple (es ++ [AgentEvent.tool_call nm cid args,
      AgentEvent.tool_result nm2 cid res]) cid := by
  obtain ⟨i1, hlt, hi1⟩ := List.mem_iff_getElem.mp hd
  refine ⟨i1, es.length, es.length + 1, d, nm, args, nm2, res, hlt,
    Nat.lt_succ_self _, ?_, ?_, ?_⟩
  · rw [List.getElem?_append, if_pos hlt, List.getElem?_eq_getElem hlt, hi1]
  · rw [List.getElem?_append, if_neg (by omega), Nat.sub_self]
    rfl
  · rw [List.getElem?_append, if_neg (by omega), Nat.add_sub_cancel_left]
    rfl

lemma gmApplyPart_pending_mem (roundIdx : Nat) (dumps : DumpJson) (st : GState)
    (p : GPart) (pc : PendingCall)
    (h : pc ∈ (gmApplyPart roundIdx dumps st p).1.pending_calls) :
    pc ∈ st.pending_calls ∨
      AgentEvent.tool_args_delta pc.id (dumps pc.args) ∈ (gmApplyPart roundIdx dumps st p).2 := by
  unfold gmApplyPart at h ⊢
  rcases p with ⟨_ | fc⟩
  · exact Or.inl h
  · rcases hn : strTruthy fc.name with _ | name <;> simp only [hn] at h ⊢
    · exact Or.inl h
    · simp only [List.mem_append] at h
      rcases h with h | h
      · exact Or.inl h
      · simp only [List.mem_singleton] at h
        subst h
        exact Or.inr (by simp)

lemma gmApplyParts_pending_mem (roundIdx : Nat) (dumps : DumpJson) (st : GState)
    (ps : List GPart) (pc : PendingCall)
    (h : pc ∈ (gmApplyParts roundIdx dumps st ps).1.pending_calls) :
    pc ∈ st.pending_calls ∨
      AgentEvent.tool_args_delta pc.id (dumps pc.args) ∈ (gmApplyParts roundIdx dumps st ps).2 := by
  induction ps generalizing st with
  | nil => exact Or.inl h
  | cons p ps ih =>
    simp only [gmApplyParts] at h ⊢
    rcases ih _ h with h2 | h2
    · rcases gmApplyPart_pending_mem roundIdx dumps st p pc h2 with h3 | h3
      · exact Or.inl h3
      · exact Or.inr (List.mem_append.mpr (Or.inl h3))
    · exact Or.inr (List.mem_append.mpr (Or.inr h2))

lemma gmApplyCandidates_pending_mem (roundIdx : Nat) (dumps : DumpJson) (st : GState)
    (cs : List GCandidate) (pc : PendingCall)
    (h : pc ∈ (gmApplyCandidates roundIdx dumps st cs).1.pending_calls) :
    pc ∈ st.pending_calls ∨
      AgentEvent.tool_args_delta pc.id (dumps pc.args) ∈ (gmApplyCandidates roundIdx dumps st cs).2 := by
  induction cs generalizing st with
  | nil => exact Or.inl h
  | cons cand cands ih =>
    simp only [gmApplyCandidates] at h ⊢
    rcases hc : cand.content with _ | content <;> simp only [hc] at h ⊢
    · rcases ih _ h with h2 | h2
      · exact Or.inl h2
      · exact Or.inr (List.mem_append.mpr (Or.inr h2))
    · rcases ih _ h with h2 | h2
      · rcases gmApplyParts_pending_mem roundIdx dumps st content.parts pc h2 with h3 | h3
        · exact Or.inl h3
        · exact Or.inr (List.mem_append.mpr (Or.inl h3))
      · exact Or.inr (List.mem_append.mpr (Or.inr h2))

lemma gmProcessChunk_pending_mem (roundIdx : Nat) (dumps : DumpJson) (st : GState)
    (c : GChunk) (pc : PendingCall)
    (h : pc ∈ (gmProcessChunk roundIdx dumps st c).1.pending_calls) :
    pc ∈ st.pending_calls ∨
      AgentEvent.tool_args_delta pc.id (dumps pc.args) ∈ (gmProcessChunk roundIdx dumps st c).2 := by
  unfold gmProcessChunk at h ⊢
  rcases ht : strTruthy c.text with _ | t <;> simp only [ht] at h ⊢
  · rcases gmApplyCandidates_pending_mem roundIdx dumps _ _ pc h with h2 | h2
    · exact Or.inl h2
    · exact Or.inr (by simpa using h2)
  · rcases gmApplyCandidates_pending_mem roundIdx dumps _ _ pc h with h2 | h2
    · exact Or.inl h2
    · exact Or.inr (List.mem_append.mpr (Or.inr h2))

lemma gmProcessChunks_pending_mem (roundIdx : Nat) (dumps : DumpJson) (st : GState)
    (cs : List GChunk) (pc : PendingCall)
    (h : pc ∈ (gmProcessChunks roundIdx dumps st cs).1.pending_calls) :
    pc ∈ st.pending_calls ∨
      AgentEvent.tool_args_delta pc.id (dumps pc.args) ∈ (gmProcessChunks roundIdx dumps st cs).2 := by
  induction cs generalizing st with
  | nil => exact Or.inl h
  | cons c cs ih =>
    simp only [gmProcessChunks] at h ⊢
    rcases ih _ h with h2 | h2
    · rcases gmProcessChunk_pending_mem roundIdx dumps st c pc h2 with h3 | h3
      · exact Or.inl h3
      · exact Or.inr (List.mem_append.mpr (Or.inl h3))
    · exact Or.inr (List.mem_append.mpr (Or.inr h2))

/-- Every pending call of a Gemini round had its `tool_args_delta` event
(with the matching minted call id) emitted during the chunk loop. -/
lemma gmPending_args_delta (roundIdx : Nat) (dumps : DumpJson) (chunks : List GChunk)
    (pc : PendingCall) (h : pc ∈ (gmChunkState roundIdx dumps chunks).pending_calls) :
    AgentEvent.tool_args_delta pc.id (dumps pc.args) ∈ gmChunkEvents roundIdx dumps chunks := by
  rcases gmProcessChunks_pending_mem roundIdx dumps ⟨"", []⟩ chunks pc h with h2 | h2
  · simp at h2
  · exact h2

/-- C8: if the model's first response finalizes zero tool calls (and does
not raise), the emitted event sequence is exactly the first round's chunk
events — all of which are `text_delta` events — followed by one `done`,
and the stream terminates after that single round; for both adapters. -/
theorem C8_zero_tool_calls_text_then_done :
    (∀ (provider : Provider) (runTool : RunToolFn) (parse : ParseArgs)
       (dumps : DumpJson) (messages : List InMessage) (maxToolRounds : Nat),
       1 ≤ maxToolRounds →
       (provider (oaInitConv messages)).exn = none →
       (oaChunkState (provider (oaInitConv messages)).chunks).tool_calls.isEmpty = true →
       openaiStream provider runTool parse dumps messages maxToolRounds =
         oaChunkEvents (provider (oaInitConv messages)).chunks ++ [AgentEvent.done] ∧
       (oaChunkEvents (provider (oaInitConv messages)).chunks).all isTextDelta = true) ∧
    (∀ (provider : GProvider) (runTool : RunToolFn) (dumps : DumpJson)
       (messages : List InMessage) (maxToolRounds : Nat),
       1 ≤ maxToolRounds →
       (provider (convertMessagesToContents messages)).exn = none →
       (gmChunkState 0 dumps (provider (convertMessagesToContents messages)).chunks).pending_calls.isEmpty = true →
       geminiStream provider runTool dumps messages maxToolRounds =
         gmChunkEvents 0 dumps (provider (convertMessagesToContents messages)).chunks ++
           [AgentEvent.done] ∧
       (gmChunkEvents 0 dumps (provider (convertMessagesToContents messages)).chunks).all
         isTextDelta = true) := by
  constructor
  · intro provider runTool parse dumps messages maxToolRounds hge hexn hempty
    obtain ⟨k, hk⟩ : ∃ k, maxToolRounds = k + 1 := ⟨maxToolRounds - 1, by omega⟩
    constructor
    · rw [openaiStream_eq_go, hk]
      exact oaStreamGo_done_step provider runTool parse dumps (k + 1) k
        (oaInitConv messages) hexn hempty
    · rw [List.all_eq_true]
      intro e he
      obtain ⟨t, ht⟩ := (oaProcessChunks_no_calls ⟨"", []⟩ _
        (by simpa [oaChunkState, List.isEmpty_iff] using hempty)).2 e he
      subst ht
      rfl
  · intro provider runTool dumps messages maxToolRounds hge hexn hempty
    obtain ⟨k, hk⟩ : ∃ k, maxToolRounds = k + 1 := ⟨maxToolRounds - 1, by omega⟩
    constructor
    · rw [geminiStream_eq_go, hk]
      exact gmStreamGo_done_step provider runTool dumps (k + 1) k 0
        (convertMessagesToContents messages) hexn hempty
    · rw [List.all_eq_true]
      intro e he
      obtain ⟨t, ht⟩ := (gmProcessChunks_no_calls 0 dumps ⟨"", []⟩ _
        (by simpa [gmChunkState, List.isEmpty_iff] using hempty)).2 e he
      subst ht
      rfl

/-- Witness for C8: a provider answering with text only makes both
adapters emit exactly one `text_delta` and one `done`. -/
theorem C8_witness :
    ((1 : Nat) ≤ 5 ∧
     (oaWitProviderText (oaInitConv witMsgs)).exn = none ∧
     (oaChunkState (oaWitProviderText (oaInitConv witMsgs)).chunks).tool_calls.isEmpty = true) ∧
    openaiStream oaWitProviderText witRunTool witParse witDumps witMsgs 5 =
      [AgentEvent.text_delta "hello", AgentEvent.done] ∧
    geminiStream gmWitProviderText witRunTool witDumps witMsgs 5 =
      [AgentEvent.text_delta "hello", AgentEvent.done] :=
  ⟨⟨by decide, by decide, by decide⟩,
   ((C8_zero_tool_calls_text_then_done.1 oaWitProviderText witRunTool witParse witDumps
      witMsgs 5 (by decide) (by decide) (by decide)).1).trans (by decide),
   ((C8_zero_tool_calls_text_then_done.2 gmWitProviderText witRunTool witDumps
      witMsgs 5 (by decide) (by decide) (by decide)).1).trans (by decide)⟩

/-- Counterexample to C2 as stated: a conversation that triggers exactly
one tool call on round 0 (with `k = 1 < max_rounds = 3`) and then a
tool-free response, where the provider streams the call's id and name but
no argument fragment. The claim requires at least one `tool_args_delta`
per round, but the OpenAI adapter emits `tool_args_delta` only when an
argument fragment arrives: the full stream contains none at all. -/
theorem C2_counterexample :
    oaFinalized (oaWitProviderNoArgs (oaInitConv witMsgs)).chunks =
      [⟨"call-1", "tool-x", ""⟩] ∧
    (oaWitProviderNoArgs (oaInitConv witMsgs)).exn = none ∧
    (oaWitProviderNoArgs (oaConvs oaWitProviderNoArgs witRunTool witParse witDumps
      (oaInitConv witMsgs) 1)).exn = none ∧
    (oaChunkState (oaWitProviderNoArgs (oaConvs oaWitProviderNoArgs witRunTool witParse
      witDumps (oaInitConv witMsgs) 1)).chunks).tool_calls.isEmpty = true ∧
    (1 : Nat) < 3 ∧
    openaiStream oaWitProviderNoArgs witRunTool witParse witDumps witMsgs 3 =
      [AgentEvent.tool_call "tool-x" "call-1" [],
       AgentEvent.tool_result "tool-x" "call-1" [("ok", JValue.jbool true)],
       AgentEvent.done] ∧
    (openaiStream oaWitProviderNoArgs witRunTool witParse witDumps witMsgs 3).all
      (fun e => !(isToolArgsDelta e)) = true := by
  decide

/-- C2 (amended): for a conversation triggering exactly one tool call per
round for `k < max_rounds` rounds and then a tool-free response, each
round's block contains a `tool_args_delta`, then the `tool_call`, then the
`tool_result`, in that order with one shared call identifier, and the
stream ends in exactly one `done` — for the OpenAI adapter under the
additional proviso that at least one argument fragment was streamed while
the call's identifier was in place (the counterexample shows the claim
fails without it); for the Gemini adapter unconditionally. -/
theorem C2_amended_tool_round_event_pattern :
    (∀ (provider : Provider) (runTool : RunToolFn) (parse : ParseArgs)
       (dumps : DumpJson) (messages : List InMessage) (maxToolRounds k : Nat)
       (call : Nat → ToolCallAcc) (res : Nat → JObject),
       k < maxToolRounds →
       (∀ j < k,
         (provider (oaConvs provider runTool parse dumps (oaInitConv messages) j)).exn = none ∧
         oaFinalized (provider (oaConvs provider runTool parse dumps (oaInitConv messages) j)).chunks = [call j] ∧
         runTool (call j).name ((parse (call j).arguments).getD []) = .ok (res j) ∧
         (∃ d, AgentEvent.tool_args_delta (call j).id d ∈
           oaChunkEvents (provider (oaConvs provider runTool parse dumps (oaInitConv messages) j)).chunks)) →
       (provider (oaConvs provider runTool parse dumps (oaInitConv messages) k)).exn = none →
       (oaChunkState (provider (oaConvs provider runTool parse dumps (oaInitConv messages) k)).chunks).tool_calls.isEmpty = true →
       openaiStream provider runTool parse dumps messages maxToolRounds =
         eventBlocks (fun j =>
           oaChunkEvents (provider (oaConvs provider runTool parse dumps (oaInitConv messages) j)).chunks ++
           [AgentEvent.tool_call (call j).name (call j).id ((parse (call j).arguments).getD []),
            AgentEvent.tool_result (call j).name (call j).id (res j)]) k ++
         (oaChunkEvents (provider (oaConvs provider runTool parse dumps (oaInitConv messages) k)).chunks ++
          [AgentEvent.done]) ∧
       (∀ j < k, OrderedToolTriple
         (oaChunkEvents (provider (oaConvs provider runTool parse dumps (oaInitConv messages) j)).chunks ++
          [AgentEvent.tool_call (call j).name (call j).id ((parse (call j).arguments).getD []),
           AgentEvent.tool_result (call j).name (call j).id (res j)]) ((call j).id)) ∧
       (∀ e ∈ eventBlocks (fun j =>
           oaChunkEvents (provider (oaConvs provider runTool parse dumps (oaInitConv messages) j)).chunks ++
           [AgentEvent.tool_call (call j).name (call j).id ((parse (call j).arguments).getD []),
            AgentEvent.tool_result (call j).name (call j).id (res j)]) k ++
           oaChunkEvents (provider (oaConvs provider runTool parse dumps (oaInitConv messages) k)).chunks,
         isTerminal e = false)) ∧
    (∀ (provider : GProvider) (runTool : RunToolFn) (dumps : DumpJson)
       (messages : List InMessage) (maxToolRounds k : Nat)
       (pc : Nat → PendingCall) (res : Nat → JObject),
       k < maxToolRounds →
       (∀ j < k,
         (provider (gmConvs provider runTool dumps 0 (convertMessagesToContents messages) j)).exn = none ∧
         (gmChunkState j dumps (provider (gmConvs provider runTool dumps 0 (convertMessagesToContents messages) j)).chunks).pending_calls = [pc j] ∧
         runTool (pc j).name (pc j).args = .ok (res j)) →
       (provider (gmConvs provider runTool dumps 0 (convertMessagesToContents messages) k)).exn = none →
       (gmChunkState k dumps (provider (gmConvs provider runTool dumps 0 (convertMessagesToContents messages) k)).chunks).pending_calls.isEmpty = true →
       geminiStream provider runTool dumps messages maxToolRounds =
         eventBlocks (fun j =>
           gmChunkEvents j dumps (provider (gmConvs provider runTool dumps 0 (convertMessagesToContents messages) j)).chunks ++
           [AgentEvent.tool_call (pc j).name (pc j).id (pc j).args,
            AgentEvent.tool_result (pc j).name (pc j).id (res j)]) k ++
         (gmChunkEvents k dumps (provider (gmConvs provider runTool dumps 0 (convertMessagesToContents messages) k)).chunks ++
          [AgentEvent.done]) ∧
       (∀ j < k, OrderedToolTriple
         (gmChunkEvents j dumps (provider (gmConvs provider runTool dumps 0 (convertMessagesToContents messages) j)).chunks ++
          [AgentEvent.tool_call (pc j).name (pc j).id (pc j).args,
           AgentEvent.tool_result (pc j).name (pc j).id (res j)]) ((pc j).id)) ∧
       (∀ e ∈ eventBlocks (fun j =>
           gmChunkEvents j dumps (provider (gmConvs provider runTool dumps 0 (convertMessagesToContents messages) j)).chunks ++
           [AgentEvent.tool_call (pc j).name (pc j).id (pc j).args,
            AgentEvent.tool_result (pc j).name (pc j).id (res j)]) k ++
           gmChunkEvents k dumps (provider (gmConvs provider runTool dumps 0 (convertMessagesToContents messages) k)).chunks,
         isTerminal e = false)) := by
  constructor
  · intro provider runTool parse dumps messages maxToolRounds k call res hlt htools hfx hfe
    have hclean : ∀ j < k, OACleanToolRound runTool parse dumps
        (provider (oaConvs provider runTool parse dumps (oaInitConv messages) j)) := by
      intro j hj
      obtain ⟨h1, h2, h3, _⟩ := htools j hj
      refine ⟨h1, ?_, ?_⟩
      · show (oaFinalized _).isEmpty = false
        rw [h2]
        rfl
      · show (execToolCalls runTool parse dumps (oaFinalized _)).2.2 = none
        rw [h2, execToolCalls_singleton runTool parse dumps (call j) (res j) h3]
    have hblocks : eventBlocks (fun j => oaRoundEvents runTool parse dumps
        (provider (oaConvs provider runTool parse dumps (oaInitConv messages) j)).chunks) k =
        eventBlocks (fun j =>
          oaChunkEvents (provider (oaConvs provider runTool parse dumps (oaInitConv messages) j)).chunks ++
          [AgentEvent.tool_call (call j).name (call j).id ((parse (call j).arguments).getD []),
           AgentEvent.tool_result (call j).name (call j).id (res j)]) k := by
      refine eventBlocks_congr ?_
      intro j hj
      obtain ⟨h1, h2, h3, _⟩ := htools j hj
      unfold oaRoundEvents
      rw [h2, execToolCalls_singleton runTool parse dumps (call j) (res j) h3]
    obtain ⟨k2, hk2⟩ : ∃ k2, maxToolRounds - k = k2 + 1 := ⟨maxToolRounds - k - 1, by omega⟩
    have hmain := oaStreamGo_clean_rounds provider runTool parse dumps maxToolRounds
      (oaInitConv messages) k hclean (maxToolRounds - k)
    have heq : k + (maxToolRounds - k) = maxToolRounds := by omega
    rw [heq] at hmain
    rw [hk2, oaStreamGo_done_step provider runTool parse dumps maxToolRounds k2 _ hfx hfe]
      at hmain
    refine ⟨?_, ?_, ?_⟩
    · rw [openaiStream_eq_go, hmain, hblocks]
    · intro j hj
      obtain ⟨_, _, _, d, hd⟩ := htools j hj
      exact orderedToolTriple_append _ _ _ _ _ _ d hd
    · intro e he
      rcases List.mem_append.mp he with he | he
      · obtain ⟨j, hj, hm⟩ := eventBlocks_mem he
        rcases List.mem_append.mp hm with hm | hm
        · exact oaChunkEvents_not_terminal _ e hm
        · simp only [List.mem_cons] at hm
          rcases hm with hm | hm | hm
          · subst hm; rfl
          · subst hm; rfl
          · simp at hm
      · exact oaChunkEvents_not_terminal _ e he
  · intro provider runTool dumps messages maxToolRounds k pc res hlt htools hfx hfe
    have hclean : ∀ j < k, GMCleanToolRound runTool dumps (0 + j)
        (provider (gmConvs provider runTool dumps 0 (convertMessagesToContents messages) j)) := by
      intro j hj
      obtain ⟨h1, h2, h3⟩ := htools j hj
      refine ⟨h1, ?_, ?_⟩
      · rw [Nat.zero_add, h2]
        rfl
      · rw [Nat.zero_add, h2, gmExecCalls_singleton runTool (pc j) (res j) h3]
    have hblocks : eventBlocks (fun j => gmRoundEvents runTool dumps (0 + j)
        (provider (gmConvs provider runTool dumps 0 (convertMessagesToContents messages) j)).chunks) k =
        eventBlocks (fun j =>
          gmChunkEvents j dumps (provider (gmConvs provider runTool dumps 0 (convertMessagesToContents messages) j)).chunks ++
          [AgentEvent.tool_call (pc j).name (pc j).id (pc j).args,
           AgentEvent.tool_result (pc j).name (pc j).id (res j)]) k := by
      refine eventBlocks_congr ?_
      intro j hj
      obtain ⟨h1, h2, h3⟩ := htools j hj
      unfold gmRoundEvents
      rw [Nat.zero_add, h2, gmExecCalls_singleton runTool (pc j) (res j) h3]
    obtain ⟨k2, hk2⟩ : ∃ k2, maxToolRounds - k = k2 + 1 := ⟨maxToolRounds - k - 1, by omega⟩
    have hmain := gmStreamGo_clean_rounds provider runTool dumps maxToolRounds 0
      (convertMessagesToContents messages) k hclean (maxToolRounds - k)
    have heq : k + (maxToolRounds - k) = maxToolRounds := by omega
    rw [heq] at hmain
    rw [hk2, gmStreamGo_done_step provider runTool dumps maxToolRounds k2 (0 + k) _ hfx
      (by simpa using hfe)] at hmain
    refine ⟨?_, ?_, ?_⟩
    · rw [geminiStream_eq_go, hmain, hblocks]
      simp only [Nat.zero_add]
    · intro j hj
      obtain ⟨h1, h2, h3⟩ := htools j hj
      have hd := gmPending_args_delta j dumps
        (provider (gmConvs provider runTool dumps 0 (convertMessagesToContents messages) j)).chunks
        (pc j) (by rw [h2]; exact List.mem_singleton.mpr rfl)
      exact orderedToolTriple_append _ _ _ _ _ _ _ hd
    · intro e he
      rcases List.mem_append.mp he with he | he
      · obtain ⟨j, hj, hm⟩ := eventBlocks_mem he
        rcases List.mem_append.mp hm with hm | hm
        · exact gmChunkEvents_not_terminal _ _ _ e hm
        · simp only [List.mem_cons] at hm
          rcases hm with hm | hm | hm
          · subst hm; rfl
          · subst hm; rfl
          · simp at hm
      · exact gmChunkEvents_not_terminal _ _ _ e he

/-- Witness for the amended C2: one tool round (whose argument fragment
was streamed with the id in place), then a text round, for both
adapters. -/
theorem C2_amended_witness :
    ((1 : Nat) < 3 ∧
     (oaWitProviderOnce (oaConvs oaWitProviderOnce witRunTool witParse witDumps
       (oaInitConv witMsgs) 1)).exn = none ∧
     (oaChunkState (oaWitProviderOnce (oaConvs oaWitProviderOnce witRunTool witParse
       witDumps (oaInitConv witMsgs) 1)).chunks).tool_calls.isEmpty = true) ∧
    openaiStream oaWitProviderOnce witRunTool witParse witDumps witMsgs 3 =
      [AgentEvent.tool_args_delta "call-1" "ax",
       AgentEvent.tool_call "tool-x" "call-1" [],
       AgentEvent.tool_result "tool-x" "call-1" [("ok", JValue.jbool true)],
       AgentEvent.text_delta "hello", AgentEvent.done] ∧
    geminiStream gmWitProviderOnce witRunTool witDumps witMsgs 3 =
      [AgentEvent.tool_args_delta "gemini-tool-x-0-0" "",
       AgentEvent.tool_call "tool-x" "gemini-tool-x-0-0" [("a", JValue.num 1)],
       AgentEvent.tool_result "tool-x" "gemini-tool-x-0-0" [("ok", JValue.jbool true)],
       AgentEvent.text_delta "hello", AgentEvent.done] :=
  ⟨⟨by decide, by decide, by decide⟩,
   ((C2_amended_tool_round_event_pattern.1 oaWitProviderOnce witRunTool witParse witDumps
      witMsgs 3 1 (fun _ => ⟨"call-1", "tool-x", "ax"⟩)
      (fun _ => [("ok", JValue.jbool true)]) (by decide)
      (fun j hj => by
        have hj0 : j = 0 := by omega
        subst hj0
        exact ⟨by decide, by decide, rfl, ⟨"ax", by decide⟩⟩)
      (by decide) (by decide)).1).trans (by decide),
   ((C2_amended_tool_round_event_pattern.2 gmWitProviderOnce witRunTool witDumps
      witMsgs 3 1 (fun _ => ⟨"gemini-tool-x-0-0", "tool-x", [("a", JValue.num 1)]⟩)
      (fun _ => [("ok", JValue.jbool true)]) (by decide)
      (fun j hj => by
        have hj0 : j = 0 := by omega
        subst hj0
        exact ⟨by decide, by decide, rfl⟩)
      (by decide) (by decide)).1).trans (by decide)⟩

/-- C7: when the accumulated argument text of a finalized tool call is
not valid JSON, end-of-stream finalization parses it to the empty
argument mapping instead of failing the round: the `tool_call` event is
emitted with empty arguments and the round proceeds to tool invocation
(the tool runs and its `tool_result` follows, and the remaining calls are
executed as usual). -/
theorem C7_malformed_json_empty_arguments :
    ∀ (runTool : RunToolFn) (parse : ParseArgs) (dumps : DumpJson)
      (tc : ToolCallAcc) (rest : List ToolCallAcc) (r : JObject),
      parse tc.arguments = none →
      runTool tc.name [] = .ok r →
      execToolCalls runTool parse dumps (tc :: rest) =
        (AgentEvent.tool_call tc.name tc.id [] ::
           AgentEvent.tool_result tc.name tc.id r ::
           (execToolCalls runTool parse dumps rest).1,
         ChatMessage.toolMessage tc.id (dumps r) ::
           (execToolCalls runTool parse dumps rest).2.1,
         (execToolCalls runTool parse dumps rest).2.2) := by
  intro runTool parse dumps tc rest r hp hr
  simp only [execToolCalls, hp, Option.getD_none, hr]

/-- Witness for C7: a call whose accumulated argument text is rejected by
the parser is invoked with the empty mapping and the round completes. -/
theorem C7_witness :
    witParse "not json" = none ∧
    witRunTool "tool-x" [] = .ok [("ok", JValue.jbool true)] ∧
    execToolCalls witRunTool witParse witDumps [⟨"call-1", "tool-x", "not json"⟩] =
      ([AgentEvent.tool_call "tool-x" "call-1" [],
        AgentEvent.tool_result "tool-x" "call-1" [("ok", JValue.jbool true)]],
       [ChatMessage.toolMessage "call-1" ""], none) :=
  ⟨rfl, rfl,
   (C7_malformed_json_empty_arguments witRunTool witParse witDumps
     ⟨"call-1", "tool-x", "not json"⟩ [] [("ok", JValue.jbool true)] rfl rfl).trans
     (by decide)⟩

/-- C5: `run_tool` on a name not in the registry returns the structured
`UNKNOWN_TOOL` payload (never raising, touching neither the store nor the
usage counter), and the agent round continues normally: in a round whose
single finalized call names an unregistered tool, the adapter still emits
the `tool_call` and a `tool_result` carrying that payload and then
invokes the continuation of the loop on the extended conversation. -/
theorem C5_unknown_tool_structured_and_round_continues :
    (∀ {Db : Type} (impl : String → ArgsMap → Db → Except String (JObject × Db))
       (statExec : String → Db → Except String Db) (name : String)
       (args : ArgsMap) (db : Db),
       TOOL_MAP_NAMES.contains name = false →
       run_tool impl statExec name args db = .ok (unknownToolResult name, db)) ∧
    (∀ {Db : Type} (impl : String → ArgsMap → Db → Except String (JObject × Db))
       (statExec : String → Db → Except String Db) (db : Db)
       (parse : ParseArgs) (dumps : DumpJson) (resp : OARoundResp)
       (msgs : List ChatMessage) (k : List ChatMessage → List AgentEvent)
       (tc : ToolCallAcc),
       TOOL_MAP_NAMES.contains tc.name = false →
       resp.exn = none →
       oaFinalized resp.chunks = [tc] →
       oaRoundStep (liftRunTool impl statExec db) parse dumps resp msgs k =
         oaChunkEvents resp.chunks ++
         [AgentEvent.tool_call tc.name tc.id ((parse tc.arguments).getD []),
          AgentEvent.tool_result tc.name tc.id (unknownToolResult tc.name)] ++
         k ((msgs ++ [ChatMessage.assistantToolCalls (oaChunkState resp.chunks).content [tc]]) ++
            [ChatMessage.toolMessage tc.id (dumps (unknownToolResult tc.name))])) := by
  constructor
  · intro Db impl statExec name args db hname
    unfold run_tool
    rw [hname]
    rfl
  · intro Db impl statExec db parse dumps resp msgs k tc hname hexn hfin
    have hrt : liftRunTool impl statExec db tc.name ((parse tc.arguments).getD []) =
        .ok (unknownToolResult tc.name) := by
      unfold liftRunTool run_tool
      rw [hname]
      rfl
    have hfin2 : (oaChunkState resp.chunks).tool_calls = [tc] := hfin
    have hexec := execToolCalls_singleton (liftRunTool impl statExec db) parse dumps tc
      (unknownToolResult tc.name) hrt
    simp only [oaRoundStep, hexn, hfin2, List.isEmpty_cons, Bool.false_eq_true,
      if_false, hexec]

/-- Witness for C5: the name `no_such_tool` is unregistered; `run_tool`
returns the `UNKNOWN_TOOL` payload and the adapter round still emits the
`tool_result` and hands control to the next round. -/
theorem C5_witness :
    TOOL_MAP_NAMES.contains "no_such_tool" = false ∧
    run_tool (fun _ _ db => .ok ([], db)) (fun _ db => .ok db) "no_such_tool" [] () =
      .ok (unknownToolResult "no_such_tool", ()) ∧
    oaRoundStep (liftRunTool (fun _ _ db => .ok ([], db)) (fun _ db => .ok db) ())
        witParse witDumps
        ⟨[some ⟨none, some [⟨some 0, some "cid-9", some ⟨some "no_such_tool", some "ax"⟩⟩]⟩], none⟩
        (oaInitConv witMsgs) (fun _ => [AgentEvent.done]) =
      [AgentEvent.tool_args_delta "cid-9" "ax",
       AgentEvent.tool_call "no_such_tool" "cid-9" [],
       AgentEvent.tool_result "no_such_tool" "cid-9"
         [("error", JValue.str "UNKNOWN_TOOL"), ("tool", JValue.str "no_such_tool")],
       AgentEvent.done] :=
  ⟨by decide,
   C5_unknown_tool_structured_and_round_continues.1 (fun _ _ db => .ok ([], db))
     (fun _ db => .ok db) "no_such_tool" [] () (by decide),
   (C5_unknown_tool_structured_and_round_continues.2 (fun _ _ db => .ok ([], db))
     (fun _ db => .ok db) () witParse witDumps
     ⟨[some ⟨none, some [⟨some 0, some "cid-9", some ⟨some "no_such_tool", some "ax"⟩⟩]⟩], none⟩
     (oaInitConv witMsgs) (fun _ => [AgentEvent.done])
     ⟨"cid-9", "no_such_tool", "ax"⟩ (by decide) (by decide) (by decide)).trans
     (by decide)⟩

/-- Counterexample to C6 as stated: `check_stock_availability` is
registered and the argument mapping `\x7b"bogus": null\x7d` omits the required
`med_id` (and `store_id`), yet `run_tool` does not return a
`MISSING_REQUIRED_ARGUMENT` payload — CPython reports the unexpected
keyword `bogus` first, and that `TypeError` message contains neither
`missing` nor `required`, so `run_tool` re-raises it. -/
theorem C6_counterexample :
    TOOL_MAP_NAMES.contains "check_stock_availability" = true ∧
    ((([("bogus", JValue.null)] : ArgsMap).map Prod.fst).contains "med_id" = false) ∧
    toolRequiredParams "check_stock_availability" = ["med_id", "store_id"] ∧
    run_tool (fun _ _ db => .ok ([], db)) (fun _ db => .ok db)
      "check_stock_availability" [("bogus", JValue.null)] () =
      .error "check_stock_availability() got an unexpected keyword argument bogus" :=
  ⟨by decide, by decide, by decide, rfl⟩

/-- C6 (amended): for a registered tool and an argument mapping all of
whose keys are parameters of the tool, omitting at least one required
parameter makes `run_tool` return the structured
`MISSING_REQUIRED_ARGUMENT` payload (with the `TypeError` text as its
message) rather than raising; the counterexample shows the restriction on
the keys is necessary (an unexpected keyword re-raises instead). -/
theorem C6_amended_missing_required_argument :
    ∀ {Db : Type} (impl : String → ArgsMap → Db → Except String (JObject × Db))
      (statExec : String → Db → Except String Db) (name : String)
      (args : ArgsMap) (db : Db),
      TOOL_MAP_NAMES.contains name = true →
      (∀ kv ∈ args, (toolAllParams name).contains kv.1 = true) →
      (∃ p ∈ toolRequiredParams name, (args.map Prod.fst).contains p = false) →
      ∃ msg, run_tool impl statExec name args db =
        .ok (missingRequiredArgumentResult name msg,
          increment_tool_stat statExec name db) := by
  intro Db impl statExec name args db hreg hall hmiss
  unfold run_tool toolDispatch bindKwargs
  rw [hreg]
  simp only [if_true]
  have hfind : (args.map Prod.fst).find? (fun x => !((toolAllParams name).contains x)) = none := by
    rw [List.find?_eq_none]
    intro x hx
    obtain ⟨kv, hkv, hx2⟩ := List.mem_map.mp hx
    subst hx2
    simpa using hall kv hkv
  rw [hfind]
  obtain ⟨p, hp, hpc⟩ := hmiss
  rcases hcase : (toolRequiredParams name).filter
      (fun r => !((args.map Prod.fst).contains r)) with _ | ⟨q, qs⟩
  · exfalso
    have hmem : p ∈ (toolRequiredParams name).filter
        (fun r => !((args.map Prod.fst).contains r)) :=
      List.mem_filter.mpr ⟨hp, by simp only [hpc, Bool.not_false]⟩
    rw [hcase] at hmem
    simp at hmem
  · exact ⟨name ++ "() missing required positional arguments: " ++
      String.intercalate ", " (q :: qs), rfl⟩

/-- Witness for the amended C6: calling `check_stock_availability` with
only `med_id` (omitting the required `store_id`) yields the structured
payload. -/
theorem C6_amended_witness :
    (TOOL_MAP_NAMES.contains "check_stock_availability" = true ∧
     (∀ kv ∈ ([("med_id", JValue.str "M1")] : ArgsMap),
       (toolAllParams "check_stock_availability").contains kv.1 = true) ∧
     (∃ p ∈ toolRequiredParams "check_stock_availability",
       (([("med_id", JValue.str "M1")] : ArgsMap).map Prod.fst).contains p = false)) ∧
    (∃ msg, run_tool (fun _ _ db => .ok ([], db)) (fun _ db => .ok db)
      "check_stock_availability" [("med_id", JValue.str "M1")] () =
      .ok (missingRequiredArgumentResult "check_stock_availability" msg,
        increment_tool_stat (fun _ db => .ok db) "check_stock_availability" ())) :=
  ⟨⟨by decide, by decide, ⟨"store_id", by decide, by decide⟩⟩,
   C6_amended_missing_required_argument (fun _ _ db => .ok ([], db)) (fun _ db => .ok db)
     "check_stock_availability" [("med_id", JValue.str "M1")] () (by decide)
     (by decide) ⟨"store_id", by decide, by decide⟩⟩

/-- C9: for a registered tool, when the usage-counter increment's
`exec_sql` raises, `run_tool` still returns the tool's real result
computed on the untouched store: the failure is swallowed unconditionally
and is neither surfaced to the caller nor reflected in the returned
payload or store. -/
theorem C9_stat_failure_swallowed :
    ∀ {Db : Type} (impl : String → ArgsMap → Db → Except String (JObject × Db))
      (statExec : String → Db → Except String Db) (name : String)
      (args : ArgsMap) (db : Db) (e : String),
      TOOL_MAP_NAMES.contains name = true →
      statExec name db = .error e →
      run_tool impl statExec name args db = toolDispatch impl name args db := by
  intro Db impl statExec name args db e hreg hfail
  unfold run_tool increment_tool_stat
  rw [hreg, hfail]
  rfl

/-- Witness for C9: with a store counter whose update always fails, a
registered tool still returns its own result on the unchanged store. -/
theorem C9_witness :
    (TOOL_MAP_NAMES.contains "list_stores" = true ∧
     (fun (_ : String) (_ : Nat) => (Except.error "db down" : Except String Nat))
       "list_stores" 0 = .error "db down") ∧
    run_tool (fun _ _ db => .ok ([("count", JValue.num 0)], db))
        (fun _ _ => .error "db down") "list_stores" [] 0 =
      .ok ([("count", JValue.num 0)], 0) :=
  ⟨⟨by decide, rfl⟩,
   (C9_stat_failure_swallowed (fun _ _ db => .ok ([("count", JValue.num 0)], db))
     (fun _ _ => .error "db down") "list_stores" [] 0 "db down" (by decide) rfl).trans rfl⟩

/-- C10: every call of `request_prescription_refill` either rejects
(`NOT_FOUND`, `UNAUTHORIZED`, `NO_REFILLS` or `EXPIRED`) and leaves both
the `prescriptions` and `refill_requests` tables untouched, or accepts
and performs exactly the two writes: append the new refill-request row
and decrement `refills_remaining` of the matching prescription rows. -/
theorem C10_rejection_performs_no_writes :
    ∀ (today rridTimestamp createdAt : String) (db : PharmacyDb)
      (user_id prescription_id : String),
      ((request_prescription_refill today rridTimestamp createdAt db user_id prescription_id).2 = db ∧
       ∃ e, e ∈ ["NOT_FOUND", "UNAUTHORIZED", "NO_REFILLS", "EXPIRED"] ∧
         (request_prescription_refill today rridTimestamp createdAt db user_id prescription_id).1 =
           refillRejection e) ∨
      ((request_prescription_refill today rridTimestamp createdAt db user_id prescription_id).1 =
         [("accepted", JValue.jbool true),
          ("refill_request_id", JValue.str ("RR-" ++ rridTimestamp ++ "-" ++ prescription_id)),
          ("status", JValue.str "submitted"), ("eta_hours", JValue.num 4)] ∧
       (request_prescription_refill today rridTimestamp createdAt db user_id prescription_id).2 =
         { prescriptions := db.prescriptions.map fun r =>
             if r.prescription_id == prescription_id then
               { r with refills_remaining := r.refills_remaining - 1 }
             else r,
           refill_requests := db.refill_requests ++
             [⟨"RR-" ++ rridTimestamp ++ "-" ++ prescription_id, prescription_id,
               user_id, "submitted", createdAt⟩] }) := by
  intro today rridTimestamp createdAt db user_id prescription_id
  unfold request_prescription_refill
  rcases hq : queryPrescription db prescription_id with _ | rx
  · exact Or.inl ⟨rfl, "NOT_FOUND", by simp, rfl⟩
  · simp only
    split_ifs with h1 h2 h3
    · exact Or.inl ⟨rfl, "UNAUTHORIZED", by simp, rfl⟩
    · exact Or.inl ⟨rfl, "NO_REFILLS", by simp, rfl⟩
    · exact Or.inl ⟨rfl, "EXPIRED", by simp, rfl⟩
    · exact Or.inr ⟨rfl, rfl⟩

end WonderfulAI
